import Mathlib

/-!
Shallow embedding of the markdown-it-react stack-based token-to-tree renderer
(`src/markdown-renderer.tsx`, `src/renderer-env.ts`, `src/errors.ts`,
`src/utils/get-text-content.ts`, `src/utils/css-string-to-react-style.ts`).

JavaScript in-place mutation is modelled by explicit state passing: functions
that mutate the token array or the renderer environment return the updated
value alongside their result; thrown errors become `Except` errors.  The
`RendererEnv` stack is kept head-first (the JS array's last element, the top
of the stack, is the head of the Lean list).
-/

set_option maxHeartbeats 1000000

namespace MdReact

/-- markdown-it `Token`, the fields the renderer reads.  `attrs` is
`Array<[string, string]> | null` in the source, hence the `Option`;
`children` is only non-null on inline container tokens. -/
inductive Token : Type where
  | mk : (type : String) → (tag : String) → (nesting : Int) → (content : String) →
      (attrs : Option (List (String × String))) → (markup : String) →
      (children : Option (List Token)) → Token

def Token.type : Token → String
  | .mk ty _ _ _ _ _ _ => ty

def Token.tag : Token → String
  | .mk _ tg _ _ _ _ _ => tg

def Token.nesting : Token → Int
  | .mk _ _ n _ _ _ _ => n

def Token.content : Token → String
  | .mk _ _ _ c _ _ _ => c

def Token.attrs : Token → Option (List (String × String))
  | .mk _ _ _ _ a _ _ => a

def Token.markup : Token → String
  | .mk _ _ _ _ _ m _ => m

def Token.children : Token → Option (List Token)
  | .mk _ _ _ _ _ _ cs => cs

/-- Replace the `attrs` field (models `tokens[idx].attrs = ...`). -/
def Token.setAttrs : Token → Option (List (String × String)) → Token
  | .mk ty tg n c _ m cs, a => .mk ty tg n c a m cs

/-- Replace the `children` field (models writing the mutated inline
children back into the token). -/
def Token.setChildren : Token → Option (List Token) → Token
  | .mk ty tg n c a m _, cs => .mk ty tg n c a m cs

/-- The default `Token` used for out-of-range reads (never hit by the
theorems below, which stay in bounds). -/
def dtok : Token := .mk "" "" 0 "" none "" none

/-- React's `ElementType` as the renderer uses it: an intrinsic tag name
(`token.tag`, a string) or the `Fragment` symbol (the default `tags` map
sends the `text` token type to `Fragment`). -/
inductive ElementType : Type where
  | tag : String → ElementType
  | fragment : ElementType
deriving DecidableEq

/-- JS truthiness of an `ElementType` value: the empty string is falsy,
every other string and the `Fragment` symbol are truthy
(`if (!Tag) throw ...` in `handleToken`). -/
def ElementType.truthy : ElementType → Bool
  | .tag s => !s.isEmpty
  | .fragment => true

/-! ### `cssStringToReactStyle` (src/utils/css-string-to-react-style.ts)

The source matches the global regex `(?<=^|;)\s*([^:]+)\s*:\s*([^;]+)\s*`
with `matchAll` and camel-cases each key with
`key.replace(regex "-(.)", (_, p) => p.toUpperCase())`
(no `g` flag: only the first hyphen is rewritten).  The scanner below is a
direct executable model of that regex: a match may start at position 0 or
right after a `;` (the lookbehind), its key is everything up to the first
`:` with leading whitespace stripped by the greedy `\s*` (the all-whitespace
backtracking case keeps the last whitespace character), its value is
everything after the `:` up to the next `;` or the end with leading
whitespace stripped likewise, and the trailing `\s*` never consumes anything
because the greedy `[^;]+` has already taken the rest of the segment. -/

/-- JS `\s` on the characters that occur here. -/
def jsWs (c : Char) : Bool :=
  c == ' ' || c == '\t' || c == '\n' || c == '\r'

/-- `key.replace(regex "-(.)", (_, p) => p.toUpperCase())`: rewrite the
first hyphen-plus-character pair only; `.` does not match line terminators. -/
def camelizeFirst : List Char → List Char
  | [] => []
  | '-' :: c :: rest =>
      if c == '\n' || c == '\r' then '-' :: camelizeFirst (c :: rest)
      else c.toUpper :: rest
  | c :: rest => c :: camelizeFirst rest

/-- `obj[key] = value` on a JS object modelled as an insertion-ordered
association list (keys are unique by construction, as in a JS object): an
existing key keeps its position and gets the new value, a new key is
appended. -/
def setKey {α : Type} : List (String × α) → String → α → List (String × α)
  | [], k, v => [(k, v)]
  | (k', v') :: rest, k, v =>
    if k' == k then (k, v) :: rest else (k', v') :: setKey rest k v

/-- One regex match attempt at a lookbehind-valid position: `none` when the
regex cannot match starting there, otherwise the (key, value) groups and the
unconsumed rest of the input (which is empty or starts with `;`). -/
def cssMatchAt (cs : List Char) : Option ((List Char × List Char) × List Char) :=
  match cs.findIdx? (fun c => c == ':') with
  | none => none
  | some c =>
    if c == 0 then none
    else
      let K := cs.take c
      let key := if K.all jsWs then [K.getLastD ' '] else K.dropWhile jsWs
      let afterColon := cs.drop (c + 1)
      let vlen := match afterColon.findIdx? (fun ch => ch == ';') with
        | none => afterColon.length
        | some m => m
      let V := afterColon.take vlen
      if V.isEmpty then none
      else
        let value := if (V.dropWhile jsWs).isEmpty then [V.getLastD ' ']
          else V.dropWhile jsWs
        some ((key, value), afterColon.drop vlen)

/-- The `matchAll` loop: `cs` always starts at a lookbehind-valid position
(offset 0 or just after a `;`).  On a match, scanning resumes after the `;`
that ended it; on a failure, at the position after the next `;`.  The fuel
only bounds the recursion; `cs.length + 1` steps always suffice because each
step consumes at least one character. -/
def cssScan : Nat → List Char → List (String × String)
  | 0, _ => []
  | fuel + 1, cs =>
    match cssMatchAt cs with
    | some ((k, v), rest) =>
      (⟨camelizeFirst k⟩, (⟨v⟩ : String)) ::
        (match rest with
         | [] => []
         | _ :: rest' => cssScan fuel rest')
    | none =>
      match cs.findIdx? (fun c => c == ';') with
      | none => []
      | some j => cssScan fuel (cs.drop (j + 1))

/-- `cssStringToReactStyle`: the matched declarations folded into a record,
keys camel-cased (first hyphen only, as the source's `replace` does). -/
def cssStringToReactStyle (cssString : String) : List (String × String) :=
  (cssScan (cssString.length + 1) cssString.data).foldl
    (fun style kv => setKey style kv.1 kv.2) []

/-- A value stored in a projected attribute record: attribute values are
strings except for `style` under the react remap, which becomes the record
produced by `cssStringToReactStyle`. -/
inductive AttrValue : Type where
  | str : String → AttrValue
  | style : List (String × String) → AttrValue
deriving DecidableEq

/-- JS truthiness of an attribute value: the empty string is falsy, a
non-empty string and any object (the style record) are truthy. -/
def AttrValue.truthy : AttrValue → Bool
  | .str s => !s.isEmpty
  | .style _ => true

/-- The projected attribute record `Record<string, any>`. -/
def AttrMap : Type := List (String × AttrValue)

instance : DecidableEq AttrMap := by
  unfold AttrMap; infer_instance

/-- `attrs[key]` on the record: the value at the key, if present. -/
def getAttr (m : AttrMap) (k : String) : Option AttrValue :=
  (m.find? (fun kv => kv.1 == k)).map (fun kv => kv.2)

/-- `ReactNode` as the renderer produces it: `null`, a string, an array of
nodes, an element `<Tag {...attrs}>children</Tag>` (`children = []` is the
childless `<Tag {...attrs} />` form; spreading `undefined` and spreading
`{}` both give empty props, so projected attrs are stored with
`Option.getD []` applied), or a keyed `<Fragment key={i}>{child}</Fragment>`. -/
inductive ReactNode : Type where
  | null : ReactNode
  | text : String → ReactNode
  | list : List ReactNode → ReactNode
  | element : ElementType → List (String × AttrValue) → List ReactNode → ReactNode
  | fragment : Nat → ReactNode → ReactNode

mutual

/-- `getTextContent` (src/utils/get-text-content.ts): depth-first text
flattening.  An array maps and joins; a React element recurses into
`props.children` when it has children; a string is itself; everything else
is `''`. -/
def getTextContent : ReactNode → String
  | .null => ""
  | .text s => s
  | .list xs => getTextContentList xs
  | .element _ _ [] => ""
  | .element _ _ (c :: cs) => getTextContentList (c :: cs)
  | .fragment _ c => getTextContent c

/-- `getTextContent` on an array of nodes: `node.map(getTextContent).join('')`. -/
def getTextContentList : List ReactNode → String
  | [] => ""
  | x :: xs => getTextContent x ++ getTextContentList xs

end

/-! ### RendererEnv (src/renderer-env.ts) and the error taxonomy
(src/errors.ts) -/

/-- `RendererEnvStackEntry`: one open tag's buffered state. -/
structure RendererEnvStackEntry : Type where
  Tag : ElementType
  attrs : Option AttrMap
  children : List ReactNode

/-- `RendererEnv`: the rendering stack.  The JS array's last element (the
innermost open tag) is the HEAD of this list. -/
structure RendererEnv : Type where
  stack : List RendererEnvStackEntry

/-- The two fatal errors.  `imbalancedTags expected received` carries the
actually-open element type (`none` when the stack was empty) and the element
type the caller asked to close; `unknownTokenType` carries the offending
token. -/
inductive RenderError : Type where
  | imbalancedTags : Option ElementType → ElementType → RenderError
  | unknownTokenType : Token → RenderError

/-- `pushTag`: push a fresh frame; the JS method returns `null`. -/
def RendererEnv.pushTag (env : RendererEnv) (Tag : ElementType)
    (attrs : Option AttrMap) : RendererEnv :=
  ⟨⟨Tag, attrs, []⟩ :: env.stack⟩

/-- `popTag`: `this.stack.pop()` removes the top frame first (on an empty
stack it is a no-op yielding `undefined`), and only then the popped frame is
validated; the environment is returned alongside the result because the JS
mutation has happened even when the error is thrown. -/
def RendererEnv.popTag (env : RendererEnv) (Tag : ElementType) :
    Except RenderError RendererEnvStackEntry × RendererEnv :=
  match env.stack with
  | [] => (.error (.imbalancedTags none Tag), env)
  | top :: rest =>
      if top.Tag = Tag then (.ok top, ⟨rest⟩)
      else (.error (.imbalancedTags (some top.Tag) Tag), ⟨rest⟩)

/-- `pushRendered`: append the node to the top frame's children buffer and
return `null`, or return the node itself when the stack is empty. -/
def RendererEnv.pushRendered (env : RendererEnv) (node : ReactNode) :
    ReactNode × RendererEnv :=
  match env.stack with
  | [] => (node, env)
  | top :: rest => (.null, ⟨⟨top.Tag, top.attrs, top.children ++ [node]⟩ :: rest⟩)

/-! ### The Renderer (src/markdown-renderer.tsx) -/

/-- `RenderRule`: `(Tag, attrs, children) => ReactNode`, a pure function of
the resolved element type, the projected attributes and the assembled
children. -/
def RenderRule : Type := ElementType → Option AttrMap → List ReactNode → ReactNode

/-- `TokenHandlerRule`: `(tokens, idx, env) => ReactNode`.  It may mutate
the token array and the environment (both are returned) and may throw. -/
def TokenHandlerRule : Type :=
  List Token → Nat → RendererEnv → Except RenderError (ReactNode × List Token × RendererEnv)

/-- The `Renderer`'s configuration state: its three rule maps (modelled as
functions returning `none` for absent keys) and the `remapAttrsForReact`
toggle. -/
structure Renderer : Type where
  remapAttrsForReact : Bool
  renderRules : String → Option RenderRule
  tokenHandlerRules : String → Option TokenHandlerRule
  tags : String → Option ElementType

/-- `resolveElementType`: `this.tags[token.type] ?? token.tag`. -/
def Renderer.resolveElementType (r : Renderer) (token : Token) : ElementType :=
  (r.tags token.type).getD (.tag token.tag)

/-- The body of `renderAttrs`'s reduce callback: one attr pair into the
accumulated record.  Under the remap toggle the key `class` becomes
`className` and the value of `style` is transcoded by
`cssStringToReactStyle`; the `style` test runs after the `class` rename,
exactly as in the source. -/
def Renderer.renderAttrStep (r : Renderer) (acc : AttrMap)
    (attr : String × String) : AttrMap :=
  let key := attr.1
  let value : AttrValue := .str attr.2
  let key := if r.remapAttrsForReact && key == "class" then "className" else key
  let value := if r.remapAttrsForReact && key == "style" then
      .style (cssStringToReactStyle attr.2)
    else value
  setKey acc key value

/-- `renderAttrs`: fold the token's attr pairs into a record; `undefined`
when `token.attrs` is null. -/
def Renderer.renderAttrs (r : Renderer) (token : Token) : Option AttrMap :=
  token.attrs.map (fun attrs => attrs.foldl r.renderAttrStep [])

/-- `renderToken`, the default constructor:
`children.length ? <Tag {...attrs}>{children}</Tag> : <Tag {...attrs} />`.
Both forms are the `element` constructor (an empty children list is the
childless form); spreading `undefined` attrs equals spreading `{}`. -/
def Renderer.renderToken (Tag : ElementType) (attrs : Option AttrMap)
    (children : List ReactNode) : ReactNode :=
  .element Tag (attrs.getD []) children

/-- The filter of `wrapChildren`:
`child !== null && (!Array.isArray(child) || child.length)`. -/
def keepChild : ReactNode → Bool
  | .null => false
  | .list [] => false
  | _ => true

/-- `wrapChildren`: drop `null` children and empty arrays, then wrap each
survivor in `<Fragment key={i}>` keyed by its post-filter position. -/
def wrapChildren (children : List ReactNode) : List ReactNode :=
  (children.filter keepChild).enum.map (fun ci => .fragment ci.1 ci.2)

/-- `handleToken`, the default per-token dispatcher.  It never touches the
token array, so only the node and the environment are returned. -/
def Renderer.handleToken (r : Renderer) (tokens : List Token) (idx : Nat)
    (env : RendererEnv) : Except RenderError (ReactNode × RendererEnv) :=
  let token := tokens.getD idx dtok
  let Tag := r.resolveElementType token
  if !Tag.truthy then .error (.unknownTokenType token)
  else if token.nesting = 1 then
    let attrs := r.renderAttrs token
    .ok (.null, env.pushTag Tag attrs)
  else
    let popped : Except RenderError (Option AttrMap × List ReactNode × RendererEnv) :=
      if token.nesting = -1 then
        match env.popTag Tag with
        | (.error e, _) => .error e
        | (.ok top, env') => .ok (top.attrs, top.children, env')
      else
        .ok (r.renderAttrs token,
          (if token.content.isEmpty then [] else [.text token.content]), env)
    match popped with
    | .error e => .error e
    | .ok (attrs, children, env') =>
      let children := wrapChildren children
      let node := match r.renderRules token.tag with
        | some rule => rule Tag attrs children
        | none => Renderer.renderToken Tag attrs children
      .ok (env'.pushRendered node)

/-- The per-token dispatch of `renderInline`:
`rule ? rule(tokens, i, env) : this.handleToken(tokens, i, env)` — a
registered rule takes full control. -/
def Renderer.dispatchInline (r : Renderer) (tokens : List Token) (i : Nat)
    (env : RendererEnv) : Except RenderError (ReactNode × List Token × RendererEnv) :=
  match r.tokenHandlerRules (tokens.getD i dtok).type with
  | some rule => rule tokens i env
  | none =>
    match r.handleToken tokens i env with
    | .error e => .error e
    | .ok (node, env') => .ok (node, tokens, env')

/-- The `tokens.map` loop of `renderInline`: `count` iterations from index
`i`, threading the (mutable in JS) token array and environment. -/
def Renderer.inlineLoop (r : Renderer) :
    Nat → Nat → List Token → RendererEnv →
    Except RenderError (List ReactNode × List Token × RendererEnv)
  | 0, _, tokens, env => .ok ([], tokens, env)
  | count + 1, i, tokens, env =>
    match r.dispatchInline tokens i env with
    | .error e => .error e
    | .ok (node, tokens', env') =>
      match r.inlineLoop count (i + 1) tokens' env' with
      | .error e => .error e
      | .ok (nodes, tokens'', env'') => .ok (node :: nodes, tokens'', env'')

/-- `renderInline`: map every token through rule-or-default dispatch with
the shared environment, then wrap the children. -/
def Renderer.renderInline (r : Renderer) (tokens : List Token)
    (env : RendererEnv) : Except RenderError (ReactNode × List Token × RendererEnv) :=
  match r.inlineLoop tokens.length 0 tokens env with
  | .error e => .error e
  | .ok (children, tokens', env') => .ok (.list (wrapChildren children), tokens', env')

/-- The per-token dispatch of `render`: an `inline` token recurses into
`renderInline` on its children (written back, since the JS array is mutated
in place); otherwise
`this.tokenHandlerRules[token.type]?.(tokens, i, env) ?? this.handleToken(tokens, i, env)`
— note the `??`: when the registered rule returns the null marker, the
default dispatcher runs in addition. -/
def Renderer.dispatchBlock (r : Renderer) (tokens : List Token) (i : Nat)
    (env : RendererEnv) : Except RenderError (ReactNode × List Token × RendererEnv) :=
  let token := tokens.getD i dtok
  if token.type == "inline" then
    match r.renderInline (token.children.getD []) env with
    | .error e => .error e
    | .ok (node, kids', env') =>
      .ok (node, tokens.set i (token.setChildren (token.children.map (fun _ => kids'))), env')
  else
    match r.tokenHandlerRules token.type with
    | some rule =>
      match rule tokens i env with
      | .error e => .error e
      | .ok (node, tokens', env') =>
        match node with
        | .null =>
          match r.handleToken tokens' i env' with
          | .error e => .error e
          | .ok (node', env'') => .ok (node', tokens', env'')
        | _ => .ok (node, tokens', env')
    | none =>
      match r.handleToken tokens i env with
      | .error e => .error e
      | .ok (node, env') => .ok (node, tokens, env')

/-- The `tokens.map` loop of `render`. -/
def Renderer.blockLoop (r : Renderer) :
    Nat → Nat → List Token → RendererEnv →
    Except RenderError (List ReactNode × List Token × RendererEnv)
  | 0, _, tokens, env => .ok ([], tokens, env)
  | count + 1, i, tokens, env =>
    match r.dispatchBlock tokens i env with
    | .error e => .error e
    | .ok (node, tokens', env') =>
      match r.blockLoop count (i + 1) tokens' env' with
      | .error e => .error e
      | .ok (nodes, tokens'', env'') => .ok (node :: nodes, tokens'', env'')

/-- `render`: a fresh `RendererEnv` per call; the (possibly mutated) token
array is returned with the tree, mirroring that the JS caller's array has
been mutated in place. -/
def Renderer.render (r : Renderer) (tokens : List Token) :
    Except RenderError (ReactNode × List Token) :=
  match r.blockLoop tokens.length 0 tokens (⟨[]⟩ : RendererEnv) with
  | .error e => .error e
  | .ok (children, tokens', _) => .ok (.list (wrapChildren children), tokens')

/-! ### Library defaults and the constructor -/

/-- Append one `[key, value]` pair to a token's attrs after
`tokens[idx].attrs ??= []` (the pattern of the default token-handler
rules). -/
def Token.pushAttr (t : Token) (key value : String) : Token :=
  t.setAttrs (some (t.attrs.getD [] ++ [(key, value)]))

/-- `preserveMarkupRule`: store the token's `markup` as a `data-markup`
attribute on the token, then delegate to the default dispatcher. -/
def Renderer.preserveMarkupRule (r : Renderer) : TokenHandlerRule :=
  fun tokens idx env =>
    let tokens' := tokens.set idx ((tokens.getD idx dtok).pushAttr "data-markup"
      (tokens.getD idx dtok).markup)
    match r.handleToken tokens' idx env with
    | .error e => .error e
    | .ok (node, env') => .ok (node, tokens', env')

/-- The default `softbreak` token-handler rule: annotate the token with
`data-softbreak = "true"`, then delegate to the default dispatcher. -/
def softbreakRule (r : Renderer) : TokenHandlerRule :=
  fun tokens idx env =>
    let tokens' := tokens.set idx ((tokens.getD idx dtok).pushAttr "data-softbreak" "true")
    match r.handleToken tokens' idx env with
    | .error e => .error e
    | .ok (node, env') => .ok (node, tokens', env')

/-- The default `img` render rule: when the projected attrs lack a truthy
`alt`, derive it from the flattened text of the already-built children; the
result is the childless `<Tag {...attrs} />`. -/
def imgRenderRule : RenderRule :=
  fun Tag attrs children =>
    let attrs := attrs.getD []
    let attrs := if (getAttr attrs "alt").elim true (fun v => !v.truthy) then
        setKey attrs "alt" (.str (getTextContentList children))
      else attrs
    .element Tag attrs []

/-- `defaultRenderRules`: only the `img` rule. -/
def defaultRenderRules : String → Option RenderRule :=
  fun tag => if tag == "img" then some imgRenderRule else none

/-- `defaultTokenHandlerRules(renderer)`: the `softbreak` annotation rule
and `preserveMarkupRule` for `em_open` and `strong_open`, all closing over
the renderer. -/
def defaultTokenHandlerRules (r : Renderer) : String → Option TokenHandlerRule :=
  fun ty =>
    if ty == "softbreak" then some (softbreakRule r)
    else if ty == "em_open" then some r.preserveMarkupRule
    else if ty == "strong_open" then some r.preserveMarkupRule
    else none

/-- `defaultTags`: the `text` token type renders as `Fragment`. -/
def defaultTags : String → Option ElementType :=
  fun ty => if ty == "text" then some .fragment else none

/-- `RendererOpts`: user overrides for the three rule maps. -/
structure RendererOpts : Type where
  renderRules : String → Option RenderRule := fun _ => none
  tokenHandlerRules : String → Option TokenHandlerRule := fun _ => none
  tags : String → Option ElementType := fun _ => none

/-- The `Renderer` constructor: defaults merged under the user's overrides.
The default token-handler rules close over the constructed renderer; since
`handleToken` never consults `tokenHandlerRules`, closing over `base` (which
already carries the merged `renderRules` and `tags`) is extensionally the
same as the JS closure over `this`. -/
def Renderer.new (opts : RendererOpts) : Renderer :=
  let base : Renderer := {
    remapAttrsForReact := true
    renderRules := fun k => (opts.renderRules k).elim (defaultRenderRules k) some
    tokenHandlerRules := fun _ => none
    tags := fun k => (opts.tags k).elim (defaultTags k) some }
  { base with
    tokenHandlerRules := fun k =>
      (opts.tokenHandlerRules k).elim (defaultTokenHandlerRules base k) some }

/-- `new Renderer()`: the renderer with only the library defaults. -/
def defaultRenderer : Renderer := Renderer.new {}

/-! ### Balanced token forests (for C1)

A token sequence whose Open/Close tokens form perfectly balanced, strictly
nested pairs is exactly the flattening of a forest of token trees: a leaf is
a self-closing token, an inner node is an Open token, its matching Close
token, and the balanced sub-sequence strictly between them. -/

mutual

inductive TokTree : Type where
  | self : Token → TokTree
  | node : Token → Token → TokForest → TokTree

inductive TokForest : Type where
  | nil : TokForest
  | cons : TokTree → TokForest → TokForest

end

mutual

/-- The token sequence a tree stands for: `[t]` for a leaf, and
`open :: inner ++ [close]` for a pair. -/
def flattenTree : TokTree → List Token
  | .self t => [t]
  | .node o c kids => o :: (flattenForest kids ++ [c])

def flattenForest : TokForest → List Token
  | .nil => []
  | .cons k ks => flattenTree k ++ flattenForest ks

end

/-- A self-closing token the default dispatcher handles plainly: no
token-handler rule for its type, not the inline container type, a truthy
resolved element type, and no render rule for its tag. -/
def goodSelfTok (r : Renderer) (t : Token) : Bool :=
  t.nesting == 0 && t.type != "inline" && (r.tokenHandlerRules t.type).isNone &&
    (r.resolveElementType t).truthy

/-- An Open token the default dispatcher handles plainly. -/
def goodOpenTok (r : Renderer) (t : Token) : Bool :=
  t.nesting == 1 && t.type != "inline" && (r.tokenHandlerRules t.type).isNone &&
    (r.resolveElementType t).truthy

/-- A Close token the default dispatcher handles plainly (the render-rule
lookup on finalization uses the CLOSE token's tag). -/
def goodCloseTok (r : Renderer) (t : Token) : Bool :=
  t.nesting == -1 && t.type != "inline" && (r.tokenHandlerRules t.type).isNone &&
    (r.renderRules t.tag).isNone

mutual

/-- A balanced tree of plainly-dispatched tokens whose Open/Close pairs
resolve to the same element type, with no render rule firing at
finalization (self tags included). -/
def goodTree (r : Renderer) : TokTree → Bool
  | .self t => goodSelfTok r t && (r.renderRules t.tag).isNone
  | .node o c kids => goodOpenTok r o && goodCloseTok r c &&
      (r.resolveElementType o == r.resolveElementType c) && goodForest r kids

def goodForest (r : Renderer) : TokForest → Bool
  | .nil => true
  | .cons k ks => goodTree r k && goodForest r ks

end

/-- The node the default dispatcher builds for a plain self-closing
token. -/
def mirrorSelf (r : Renderer) (t : Token) : ReactNode :=
  .element (r.resolveElementType t) ((r.renderAttrs t).getD [])
    (if t.content.isEmpty then [] else [.fragment 0 (.text t.content)])

mutual

/-- The tree of nodes that mirrors a balanced token forest: one node per
tree, nested exactly as the Open/Close pairs nest; a pair's node carries
the close token's resolved element type, the OPEN token's projected
attributes, and the child-wrapped mirrors of its inner forest. -/
def mirrorTree (r : Renderer) : TokTree → ReactNode
  | .self t => mirrorSelf r t
  | .node o c kids =>
    .element (r.resolveElementType c) ((r.renderAttrs o).getD [])
      (wrapChildren (mirrorForest r kids))

def mirrorForest (r : Renderer) : TokForest → List ReactNode
  | .nil => []
  | .cons k ks => mirrorTree r k :: mirrorForest r ks

end

/-- The raw (pre-`wrapChildren`) result list of the map loop over a
balanced forest starting at environment `env`, together with the final
environment: per tree, its inner tokens map to the null marker and its
closing (or self) token to whatever `pushRendered` returns for the tree's
mirror node (the node itself at the top level, the null marker when a frame
is open). -/
def forestOuts (r : Renderer) : TokForest → RendererEnv → List ReactNode × RendererEnv
  | .nil, env => ([], env)
  | .cons k ks, env =>
    let oe := env.pushRendered (mirrorTree r k)
    let rest := forestOuts r ks oe.2
    ((List.replicate ((flattenTree k).length - 1) .null ++ [oe.1]) ++ rest.1,
      rest.2)

/-! ### The token mutation the default rule set performs (for C5 and C9)

Rendering with the library defaults mutates the token array: the
`softbreak` rule and `preserveMarkupRule` append one attribute pair to
their token before delegating.  One pass of `render` applies `mutTok` to
every top-level token (and `mutTokFlat` to every token of an inline
container's children). -/

/-- The in-place change one `render` pass makes to a non-container token:
the `softbreak` rule appends `data-softbreak = "true"`, the
`em_open`/`strong_open` rule appends `data-markup = markup`; every other
token is untouched. -/
def mutTokFlat (t : Token) : Token :=
  if t.type == "softbreak" then t.pushAttr "data-softbreak" "true"
  else if t.type == "em_open" then t.pushAttr "data-markup" t.markup
  else if t.type == "strong_open" then t.pushAttr "data-markup" t.markup
  else t

/-- The in-place change one `render` pass makes to a top-level token: an
inline container's children are each mutated by `mutTokFlat`; any other
token by `mutTokFlat` itself. -/
def mutTok (t : Token) : Token :=
  if t.type == "inline" then
    t.setChildren (t.children.map (fun kids => kids.map mutTokFlat))
  else mutTokFlat t

/-- Apply `f` in place to the tokens at indices `i, i+1, …, i+count-1`,
in loop order. -/
def mutSeg (f : Token → Token) : Nat → Nat → List Token → List Token
  | 0, _, ts => ts
  | count + 1, i, ts => mutSeg f count (i + 1) (ts.set i (f (ts.getD i dtok)))

/-- C4 counterexample: with an explicit mapping that is present but maps the
token type to the unusable empty-string element type, `handleToken` raises
`UnknownTokenTypeError` even though the token's own tag, `p`, is a usable
identifier — the fallback is taken only when the mapping is absent, not when
it is unusable. -/
def c4Renderer : Renderer :=
  Renderer.new { tags := fun ty => if ty == "x" then some (.tag "") else none }

def c4Token : Token := .mk "x" "p" 0 "" none "" none

/-- C3 counterexample material: a token-handler rule for the block token
type `foo` that (like the documented `link_open` example rule) pushes a tag
and returns the null marker. -/
def c3Rule : TokenHandlerRule :=
  fun tokens _ env => .ok (.null, tokens, env.pushTag (.tag "div") none)

def c3Renderer : Renderer :=
  Renderer.new { tokenHandlerRules := fun ty => if ty == "foo" then some c3Rule else none }

def c3Token : Token := .mk "foo" "div" 1 "" none "" none

/-- A concrete balanced forest for C1: a `p` pair containing one `text`
self-closing token. -/
def c1Forest : TokForest :=
  .cons (.node (.mk "paragraph_open" "p" 1 "" none "" none)
    (.mk "paragraph_close" "p" (-1) "" none "" none)
    (.cons (.self (.mk "text" "" 0 "hi" none "" none)) .nil)) .nil

/-! ## Theorems -/

/-! ### General lemmas about the loops and the environment -/

theorem pushRendered_nil_stack (n : ReactNode) :
    (⟨[]⟩ : RendererEnv).pushRendered n = (n, ⟨[]⟩) := rfl

theorem pushRendered_cons_stack (f : RendererEnvStackEntry)
    (S : List RendererEnvStackEntry) (n : ReactNode) :
    (⟨f :: S⟩ : RendererEnv).pushRendered n =
      (.null, ⟨⟨f.Tag, f.attrs, f.children ++ [n]⟩ :: S⟩) := rfl

/-- Reading the first token after a prefix. -/
theorem getD_append_cons (pre rest : List Token) (x : Token) :
    (pre ++ x :: rest).getD pre.length dtok = x := by
  rw [List.getD_append_right pre _ dtok pre.length le_rfl]
  simp

/-- Composing two successful runs of the map loop of `render`. -/
theorem blockLoop_add_ok (r : Renderer) (n m : Nat) :
    ∀ (i : Nat) (tokens : List Token) (env : RendererEnv) (xs : List ReactNode)
      (tk1 : List Token) (e1 : RendererEnv) (ys : List ReactNode)
      (tk2 : List Token) (e2 : RendererEnv),
    r.blockLoop n i tokens env = .ok (xs, tk1, e1) →
    r.blockLoop m (i + n) tk1 e1 = .ok (ys, tk2, e2) →
    r.blockLoop (n + m) i tokens env = .ok (xs ++ ys, tk2, e2) := by
  induction n with
  | zero =>
    intro i tokens env xs tk1 e1 ys tk2 e2 h1 h2
    simp only [Renderer.blockLoop] at h1
    obtain ⟨hx, htk, he⟩ := by simpa using h1
    subst hx htk he
    rw [Nat.zero_add] at *
    simpa using h2
  | succ n ih =>
    intro i tokens env xs tk1 e1 ys tk2 e2 h1 h2
    have hadd : n + 1 + m = (n + m) + 1 := by omega
    rw [hadd]
    simp only [Renderer.blockLoop] at h1 ⊢
    cases hd : r.dispatchBlock tokens i env with
    | error e => rw [hd] at h1; exact absurd h1 (by simp)
    | ok res =>
      obtain ⟨node, tk, e⟩ := res
      rw [hd] at h1
      dsimp only at h1 ⊢
      cases hb : r.blockLoop n (i + 1) tk e with
      | error eb => rw [hb] at h1; exact absurd h1 (by simp)
      | ok resb =>
        obtain ⟨xsb, tkb, eb⟩ := resb
        rw [hb] at h1
        dsimp only at h1
        obtain ⟨hx, htk, he⟩ := by simpa using h1
        subst htk he
        have h2' : r.blockLoop m (i + 1 + n) tkb eb = .ok (ys, tk2, e2) := by
          rw [show i + 1 + n = i + (n + 1) from by omega]
          exact h2
        rw [ih (i + 1) tk e xsb tkb eb ys tk2 e2 hb h2']
        rw [← hx]
        rfl

/-- A token with no token-handler rule and not of the inline container type
dispatches (in `render`'s loop) straight through `handleToken`, leaving the
token array unchanged. -/
theorem dispatchBlock_plain (r : Renderer) (tokens : List Token) (i : Nat)
    (env : RendererEnv)
    (hni : (tokens.getD i dtok).type ≠ "inline")
    (hrule : r.tokenHandlerRules (tokens.getD i dtok).type = none) :
    r.dispatchBlock tokens i env =
      (match r.handleToken tokens i env with
       | .error e => .error e
       | .ok (node, env') => .ok (node, tokens, env')) := by
  simp only [Renderer.dispatchBlock]
  rw [if_neg (by simpa using hni)]
  simp only [hrule]

/-- `handleToken` on an Open token: project attributes, push a frame,
return the null marker. -/
theorem handleToken_open_eq (r : Renderer) (tokens : List Token) (i : Nat)
    (env : RendererEnv)
    (h1 : (tokens.getD i dtok).nesting = 1)
    (ht : (r.resolveElementType (tokens.getD i dtok)).truthy = true) :
    r.handleToken tokens i env =
      .ok (.null, env.pushTag (r.resolveElementType (tokens.getD i dtok))
        (r.renderAttrs (tokens.getD i dtok))) := by
  simp only [Renderer.handleToken]
  rw [ht]
  simp only [Bool.not_true, Bool.false_eq_true, if_false]
  rw [if_pos h1]

/-- `handleToken` on a Close token whose type matches the top frame and
whose tag has no render rule: pop the frame, build the default node from
the frame's attrs and wrapped children, emit it. -/
theorem handleToken_close_eq (r : Renderer) (tokens : List Token) (i : Nat)
    (top : RendererEnvStackEntry) (S : List RendererEnvStackEntry)
    (hm : (tokens.getD i dtok).nesting = -1)
    (ht : (r.resolveElementType (tokens.getD i dtok)).truthy = true)
    (htag : top.Tag = r.resolveElementType (tokens.getD i dtok))
    (hrule : r.renderRules (tokens.getD i dtok).tag = none) :
    r.handleToken tokens i ⟨top :: S⟩ =
      .ok ((⟨S⟩ : RendererEnv).pushRendered
        (.element (r.resolveElementType (tokens.getD i dtok)) (top.attrs.getD [])
          (wrapChildren top.children))) := by
  simp only [Renderer.handleToken]
  rw [ht]
  simp only [Bool.not_true, Bool.false_eq_true, if_false]
  rw [if_neg (by rw [hm]; decide), if_pos hm]
  simp only [RendererEnv.popTag]
  rw [if_pos htag, hrule]
  rfl

/-- `handleToken` on a self-closing token with no render rule for its tag:
the default node from the token's attributes and its (wrapped) content,
emitted. -/
theorem handleToken_self_eq (r : Renderer) (tokens : List Token) (i : Nat)
    (env : RendererEnv)
    (h0 : (tokens.getD i dtok).nesting = 0)
    (hrule : r.renderRules (tokens.getD i dtok).tag = none)
    (ht : (r.resolveElementType (tokens.getD i dtok)).truthy = true) :
    r.handleToken tokens i env = .ok (env.pushRendered (mirrorSelf r (tokens.getD i dtok))) := by
  simp only [Renderer.handleToken]
  rw [ht]
  simp only [Bool.not_true, Bool.false_eq_true, if_false]
  rw [if_neg (by rw [h0]; decide), if_neg (by rw [h0]; decide), hrule]
  simp only [mirrorSelf]
  by_cases hc : (tokens.getD i dtok).content.isEmpty
  · rw [if_pos hc, if_pos hc]
    rfl
  · rw [if_neg hc, if_neg hc]
    rfl

theorem filter_keep_replicate_null (n : Nat) :
    (List.replicate n ReactNode.null).filter keepChild = [] := by
  induction n with
  | zero => rfl
  | succ n ih => simp [List.replicate_succ, List.filter_cons, keepChild, ih]

/-- Mirror nodes are elements, which `wrapChildren`'s filter keeps. -/
theorem keep_mirrorTree (r : Renderer) (k : TokTree) :
    keepChild (mirrorTree r k) = true := by
  cases k <;> rfl

/-- `forestOuts` under an open frame: every emission is the null marker and
the mirror nodes accumulate in the frame's children buffer. -/
theorem forestOuts_cons_stack (r : Renderer) :
    ∀ (F : TokForest) (f : RendererEnvStackEntry) (S : List RendererEnvStackEntry),
    forestOuts r F ⟨f :: S⟩ =
      (List.replicate (flattenForest F).length .null,
        ⟨⟨f.Tag, f.attrs, f.children ++ mirrorForest r F⟩ :: S⟩)
  | .nil, f, S => by simp [forestOuts, flattenForest, mirrorForest]
  | .cons k ks, f, S => by
    have ih := forestOuts_cons_stack r ks ⟨f.Tag, f.attrs, f.children ++ [mirrorTree r k]⟩ S
    have hpos : 0 < (flattenTree k).length := by
      cases k <;> simp [flattenTree]
    have hlen : (flattenTree k ++ flattenForest ks).length
        = ((flattenTree k).length - 1) + 1 + (flattenForest ks).length := by
      rw [List.length_append]; omega
    simp only [forestOuts, pushRendered_cons_stack, ih, flattenForest, mirrorForest,
      Prod.mk.injEq, hlen]
    constructor
    · rw [List.replicate_add, List.replicate_succ']
    · simp [List.append_assoc]

/-- `forestOuts` at the top level: the final environment is again the empty
stack, and filtering the emissions leaves exactly the mirror nodes. -/
theorem forestOuts_empty_stack (r : Renderer) :
    ∀ F : TokForest,
    (forestOuts r F ⟨[]⟩).2 = ⟨[]⟩ ∧
    ((forestOuts r F ⟨[]⟩).1).filter keepChild = mirrorForest r F
  | .nil => ⟨rfl, rfl⟩
  | .cons k ks => by
    have ih := forestOuts_empty_stack r ks
    constructor
    · simp only [forestOuts, pushRendered_nil_stack]
      exact ih.1
    · simp only [forestOuts, pushRendered_nil_stack, mirrorForest]
      simp [List.filter_append, filter_keep_replicate_null, keep_mirrorTree, ih.2]

/-- One step of the map loop of `render`. -/
theorem blockLoop_succ (r : Renderer) (count i : Nat) (tokens : List Token)
    (env : RendererEnv) :
    r.blockLoop (count + 1) i tokens env =
      (match r.dispatchBlock tokens i env with
       | .error e => .error e
       | .ok (node, tokens', env') =>
         match r.blockLoop count (i + 1) tokens' env' with
         | .error e => .error e
         | .ok (nodes, tokens'', env'') => .ok (node :: nodes, tokens'', env'')) := rfl

mutual

/-- Running `render`'s loop over the flattening of one good token tree,
from any environment: the loop succeeds, leaves the token array unchanged,
emits null markers for every token but the closing (or self) one — which
emits what `pushRendered` yields for the tree's mirror node — and the
environment evolves exactly by that `pushRendered`. -/
theorem blockLoop_tree (r : Renderer) (k : TokTree) :
    ∀ (pre post : List Token) (env : RendererEnv),
    goodTree r k = true →
    r.blockLoop (flattenTree k).length pre.length (pre ++ (flattenTree k ++ post)) env =
      .ok (List.replicate ((flattenTree k).length - 1) .null ++
          [(env.pushRendered (mirrorTree r k)).1],
        pre ++ (flattenTree k ++ post),
        (env.pushRendered (mirrorTree r k)).2) := by
  cases k with
  | self t =>
    intro pre post env hg
    simp only [goodTree, goodSelfTok, Bool.and_eq_true, beq_iff_eq, bne_iff_ne,
      Option.isNone_iff_eq_none] at hg
    obtain ⟨⟨⟨⟨hn0, hni⟩, hnorule⟩, htruthy⟩, hnorender⟩ := hg
    have hget : (pre ++ t :: post).getD pre.length dtok = t :=
      getD_append_cons pre post t
    rcases hpr : env.pushRendered (mirrorSelf r t) with ⟨out, envOut⟩
    simp only [flattenTree, List.singleton_append, List.length_cons, List.length_nil,
      mirrorTree, hpr]
    rw [blockLoop_succ]
    rw [dispatchBlock_plain r _ _ _ (by rw [hget]; exact hni) (by rw [hget, hnorule])]
    rw [handleToken_self_eq r _ _ _ (by rw [hget, hn0]) (by rw [hget, hnorender])
      (by rw [hget]; exact htruthy)]
    simp only [hget, hpr]
    rfl
  | node o c kids =>
    intro pre post env hg
    simp only [goodTree, goodOpenTok, goodCloseTok, Bool.and_eq_true, beq_iff_eq,
      bne_iff_ne, Option.isNone_iff_eq_none] at hg
    obtain ⟨⟨⟨⟨⟨⟨hon, honi⟩, honorule⟩, hotruthy⟩,
      ⟨⟨⟨hcn, hcni⟩, hcnorule⟩, hcnorender⟩⟩, heq⟩, hkids⟩ := hg
    have hctruthy : (r.resolveElementType c).truthy = true := by rw [← heq]; exact hotruthy
    rcases hpr : env.pushRendered (mirrorTree r (.node o c kids)) with ⟨out, envOut⟩
    -- the token array, in the three shapes the three phases read it in
    have hT1 : pre ++ (flattenTree (.node o c kids) ++ post)
        = pre ++ (o :: ((flattenForest kids ++ [c]) ++ post)) := by
      simp [flattenTree]
    have hT2 : pre ++ (o :: ((flattenForest kids ++ [c]) ++ post))
        = (pre ++ [o]) ++ (flattenForest kids ++ ([c] ++ post)) := by
      simp
    have hT3 : pre ++ (o :: ((flattenForest kids ++ [c]) ++ post))
        = ((pre ++ [o]) ++ flattenForest kids) ++ (c :: post) := by
      simp
    have hlen : (flattenTree (.node o c kids)).length
        = (flattenForest kids).length + 1 + 1 := by
      simp [flattenTree]
    -- phase 1: the Open token pushes a fresh frame
    have hgetO : (pre ++ (o :: ((flattenForest kids ++ [c]) ++ post))).getD
        pre.length dtok = o := getD_append_cons pre _ o
    have hstep1 : r.dispatchBlock (pre ++ (o :: ((flattenForest kids ++ [c]) ++ post)))
        pre.length env =
        .ok (.null, pre ++ (o :: ((flattenForest kids ++ [c]) ++ post)),
          ⟨⟨r.resolveElementType o, r.renderAttrs o, []⟩ :: env.stack⟩) := by
      rw [dispatchBlock_plain r _ _ _ (by rw [hgetO]; exact honi) (by rw [hgetO, honorule])]
      rw [handleToken_open_eq r _ _ _ (by rw [hgetO, hon]) (by rw [hgetO]; exact hotruthy)]
      simp only [hgetO]
      rfl
    -- phase 2: the inner forest accumulates into the fresh frame
    have hkrun := blockLoop_forest r kids (pre ++ [o]) ([c] ++ post)
      ⟨⟨r.resolveElementType o, r.renderAttrs o, []⟩ :: env.stack⟩ hkids
    rw [← hT2] at hkrun
    rw [forestOuts_cons_stack r kids ⟨r.resolveElementType o, r.renderAttrs o, []⟩
      env.stack] at hkrun
    simp only [List.length_append, List.length_singleton, List.nil_append] at hkrun
    -- phase 3: the Close token pops the frame and emits the mirror node
    have hgetC : ((((pre ++ [o]) ++ flattenForest kids) ++ (c :: post))).getD
        ((pre ++ [o]) ++ flattenForest kids).length dtok = c :=
      getD_append_cons _ post c
    rw [← hT3] at hgetC
    have hidxC : ((pre ++ [o]) ++ flattenForest kids).length
        = pre.length + 1 + (flattenForest kids).length := by
      simp only [List.length_append, List.length_singleton]
    rw [hidxC] at hgetC
    have hstep3 : r.dispatchBlock (pre ++ (o :: ((flattenForest kids ++ [c]) ++ post)))
        (pre.length + 1 + (flattenForest kids).length)
        ⟨⟨r.resolveElementType o, r.renderAttrs o, mirrorForest r kids⟩ :: env.stack⟩ =
        .ok (out, pre ++ (o :: ((flattenForest kids ++ [c]) ++ post)), envOut) := by
      rw [dispatchBlock_plain r _ _ _ (by rw [hgetC]; exact hcni) (by rw [hgetC, hcnorule])]
      rw [handleToken_close_eq r _ _
        ⟨r.resolveElementType o, r.renderAttrs o, mirrorForest r kids⟩ env.stack
        (by rw [hgetC, hcn]) (by rw [hgetC]; exact hctruthy) (by rw [hgetC]; exact heq)
        (by rw [hgetC, hcnorender])]
      have : (⟨env.stack⟩ : RendererEnv).pushRendered
          (.element (r.resolveElementType
              ((pre ++ (o :: ((flattenForest kids ++ [c]) ++ post))).getD
                (pre.length + 1 + (flattenForest kids).length) dtok))
            ((⟨r.resolveElementType o, r.renderAttrs o,
                mirrorForest r kids⟩ : RendererEnvStackEntry).attrs.getD [])
            (wrapChildren (⟨r.resolveElementType o, r.renderAttrs o,
              mirrorForest r kids⟩ : RendererEnvStackEntry).children)) = (out, envOut) := by
        rw [hgetC]
        exact hpr
      rw [this]
    -- compose: close run as a single-step loop
    have hclose : r.blockLoop 1 (pre.length + 1 + (flattenForest kids).length)
        (pre ++ (o :: ((flattenForest kids ++ [c]) ++ post)))
        ⟨⟨r.resolveElementType o, r.renderAttrs o, mirrorForest r kids⟩ :: env.stack⟩ =
        .ok ([out], pre ++ (o :: ((flattenForest kids ++ [c]) ++ post)), envOut) := by
      rw [blockLoop_succ, hstep3]
      rfl
    have hcomp := blockLoop_add_ok r (flattenForest kids).length 1 (pre.length + 1)
      (pre ++ (o :: ((flattenForest kids ++ [c]) ++ post)))
      ⟨⟨r.resolveElementType o, r.renderAttrs o, []⟩ :: env.stack⟩
      (List.replicate (flattenForest kids).length .null)
      (pre ++ (o :: ((flattenForest kids ++ [c]) ++ post)))
      ⟨⟨r.resolveElementType o, r.renderAttrs o, mirrorForest r kids⟩ :: env.stack⟩
      [out] (pre ++ (o :: ((flattenForest kids ++ [c]) ++ post))) envOut
      hkrun hclose
    -- assemble the whole run
    rw [hT1, hlen, blockLoop_succ, hstep1]
    dsimp only
    rw [hcomp]
    simp [hpr, List.replicate_succ]

/-- Running `render`'s loop over the flattening of a good token forest,
from any environment: the loop succeeds, leaves the token array unchanged,
and emits and evolves the environment as `forestOuts` describes. -/
theorem blockLoop_forest (r : Renderer) (F : TokForest) :
    ∀ (pre post : List Token) (env : RendererEnv),
    goodForest r F = true →
    r.blockLoop (flattenForest F).length pre.length (pre ++ (flattenForest F ++ post)) env =
      .ok ((forestOuts r F env).1, pre ++ (flattenForest F ++ post),
        (forestOuts r F env).2) := by
  cases F with
  | nil =>
    intro pre post env _
    simp only [flattenForest, List.length_nil, List.nil_append, forestOuts]
    rfl
  | cons k ks =>
    intro pre post env hg
    simp only [goodForest, Bool.and_eq_true] at hg
    obtain ⟨hk, hks⟩ := hg
    rcases hpr : env.pushRendered (mirrorTree r k) with ⟨out, envOut⟩
    have hT1 : pre ++ (flattenForest (.cons k ks) ++ post)
        = pre ++ (flattenTree k ++ (flattenForest ks ++ post)) := by
      simp [flattenForest]
    have hT2 : pre ++ (flattenTree k ++ (flattenForest ks ++ post))
        = (pre ++ flattenTree k) ++ (flattenForest ks ++ post) := by
      simp
    have htree := blockLoop_tree r k pre (flattenForest ks ++ post) env hk
    rw [hpr] at htree
    have hforest := blockLoop_forest r ks (pre ++ flattenTree k) post envOut hks
    rw [← hT2] at hforest
    simp only [List.length_append] at hforest
    have hlen : (flattenForest (.cons k ks)).length
        = (flattenTree k).length + (flattenForest ks).length := by
      simp [flattenForest]
    have hcomp := blockLoop_add_ok r (flattenTree k).length (flattenForest ks).length
      pre.length (pre ++ (flattenTree k ++ (flattenForest ks ++ post))) env
      (List.replicate ((flattenTree k).length - 1) .null ++ [out])
      (pre ++ (flattenTree k ++ (flattenForest ks ++ post))) envOut
      (forestOuts r ks envOut).1
      (pre ++ (flattenTree k ++ (flattenForest ks ++ post)))
      (forestOuts r ks envOut).2
      htree hforest
    rw [hT1, hlen, hcomp]
    simp only [forestOuts, hpr]

end

/-- Mirror nodes survive `wrapChildren`'s filter unchanged. -/
theorem filter_keep_mirrorForest (r : Renderer) :
    ∀ F : TokForest, (mirrorForest r F).filter keepChild = mirrorForest r F
  | .nil => rfl
  | .cons k ks => by
    simp [mirrorForest, List.filter_cons, keep_mirrorTree,
      filter_keep_mirrorForest r ks]

/-! ### Lemmas about the default rule set's in-place token mutation
(for C5 and C9) -/

theorem Token.type_setAttrs (t : Token) (a : Option (List (String × String))) :
    (t.setAttrs a).type = t.type := by cases t; rfl

theorem Token.tag_setAttrs (t : Token) (a : Option (List (String × String))) :
    (t.setAttrs a).tag = t.tag := by cases t; rfl

theorem Token.nesting_setAttrs (t : Token) (a : Option (List (String × String))) :
    (t.setAttrs a).nesting = t.nesting := by cases t; rfl

theorem Token.content_setAttrs (t : Token) (a : Option (List (String × String))) :
    (t.setAttrs a).content = t.content := by cases t; rfl

theorem Token.markup_setAttrs (t : Token) (a : Option (List (String × String))) :
    (t.setAttrs a).markup = t.markup := by cases t; rfl

theorem Token.children_setAttrs (t : Token) (a : Option (List (String × String))) :
    (t.setAttrs a).children = t.children := by cases t; rfl

theorem Token.attrs_setAttrs (t : Token) (a : Option (List (String × String))) :
    (t.setAttrs a).attrs = a := by cases t; rfl

theorem Token.type_pushAttr (t : Token) (k v : String) :
    (t.pushAttr k v).type = t.type := Token.type_setAttrs t _

theorem Token.tag_pushAttr (t : Token) (k v : String) :
    (t.pushAttr k v).tag = t.tag := Token.tag_setAttrs t _

theorem Token.nesting_pushAttr (t : Token) (k v : String) :
    (t.pushAttr k v).nesting = t.nesting := Token.nesting_setAttrs t _

theorem Token.content_pushAttr (t : Token) (k v : String) :
    (t.pushAttr k v).content = t.content := Token.content_setAttrs t _

theorem Token.markup_pushAttr (t : Token) (k v : String) :
    (t.pushAttr k v).markup = t.markup := Token.markup_setAttrs t _

theorem Token.attrs_pushAttr (t : Token) (k v : String) :
    (t.pushAttr k v).attrs = some (t.attrs.getD [] ++ [(k, v)]) :=
  Token.attrs_setAttrs t _

/-- Setting the same JS-object key twice keeps only the last value. -/
theorem setKey_setKey {α : Type} (k : String) (v w : α) :
    ∀ m : List (String × α), setKey (setKey m k v) k w = setKey m k w
  | [] => by simp [setKey]
  | (k', v') :: rest => by
    by_cases h : k' == k
    · simp [setKey, h]
    · simp [setKey, h, setKey_setKey k v w rest]

/-- Folding the same attr pair twice in a row is the same as once. -/
theorem renderAttrStep_idem (r : Renderer) (m : AttrMap) (p : String × String) :
    r.renderAttrStep (r.renderAttrStep m p) p = r.renderAttrStep m p := by
  simp only [Renderer.renderAttrStep]
  exact setKey_setKey _ _ _ m

/-- Appending the same `[key, value]` pair to a token's attrs a second time
does not change the projected attribute record (last wins). -/
theorem renderAttrs_pushAttr_twice (r : Renderer) (t : Token) (k v : String) :
    r.renderAttrs ((t.pushAttr k v).pushAttr k v) = r.renderAttrs (t.pushAttr k v) := by
  have key : List.foldl r.renderAttrStep [] ((t.attrs.getD [] ++ [(k, v)]) ++ [(k, v)])
      = List.foldl r.renderAttrStep [] (t.attrs.getD [] ++ [(k, v)]) := by
    rw [List.foldl_append, List.foldl_append]
    simp only [List.foldl_cons, List.foldl_nil]
    exact renderAttrStep_idem r _ _
  simp only [Renderer.renderAttrs, Token.pushAttr, Token.attrs_setAttrs,
    Option.getD_some]
  dsimp only [Option.map]
  rw [key]

/-- Writing back the element just read leaves the list unchanged. -/
theorem set_getD_self (ts : List Token) (i : Nat) (h : i < ts.length) :
    ts.set i (ts.getD i dtok) = ts := by
  have hd : ts.getD i dtok = ts[i] := by
    rw [List.getD_eq_getElem?_getD, List.getElem?_eq_getElem h]
    rfl
  rw [hd, List.set_eq_take_cons_drop _ h, ← List.drop_eq_getElem_cons h,
    List.take_append_drop]

/-- Reading from a mapped list. -/
theorem getD_map_lt (f : Token → Token) (ts : List Token) (i : Nat)
    (h : i < ts.length) :
    (ts.map f).getD i dtok = f (ts.getD i dtok) := by
  rw [List.getD_eq_getElem?_getD, List.getD_eq_getElem?_getD, List.getElem?_map,
    List.getElem?_eq_getElem h]
  rfl

/-- `handleToken` reads the token array only at the dispatched index. -/
theorem handleToken_getD_congr (r : Renderer) (ts ts' : List Token) (i : Nat)
    (env : RendererEnv) (h : ts.getD i dtok = ts'.getD i dtok) :
    r.handleToken ts i env = r.handleToken ts' i env := by
  simp only [Renderer.handleToken, h]

/-- A successful `handleToken` implies the resolved element type was
truthy. -/
theorem handleToken_ok_truthy (r : Renderer) (ts : List Token) (i : Nat)
    (env : RendererEnv) (p : ReactNode × RendererEnv)
    (h : r.handleToken ts i env = .ok p) :
    (r.resolveElementType (ts.getD i dtok)).truthy = true := by
  cases htr : (r.resolveElementType (ts.getD i dtok)).truthy
  · simp only [Renderer.handleToken] at h
    rw [htr] at h
    simp at h
  · rfl

/-- Element-type resolution ignores a token's attrs. -/
theorem resolve_pushAttr (r : Renderer) (t : Token) (k v : String) :
    r.resolveElementType (t.pushAttr k v) = r.resolveElementType t := by
  simp [Renderer.resolveElementType, Token.type_pushAttr, Token.tag_pushAttr]

/-- If `handleToken` succeeded on a token whose attrs already carry the
appended pair, it returns the same result when the pair has been appended a
second time (the projected record collapses the duplicate). -/
theorem handleToken_mut_twice (r : Renderer) (ts1 ts2 : List Token) (i : Nat)
    (env : RendererEnv) (t : Token) (k v : String) (p : ReactNode × RendererEnv)
    (h1 : ts1.getD i dtok = t.pushAttr k v)
    (h2 : ts2.getD i dtok = (t.pushAttr k v).pushAttr k v)
    (hok : r.handleToken ts1 i env = .ok p) :
    r.handleToken ts2 i env = .ok p := by
  have htr : (r.resolveElementType t).truthy = true := by
    have := handleToken_ok_truthy r ts1 i env p hok
    rwa [h1, resolve_pushAttr] at this
  simp only [Renderer.handleToken, h1] at hok
  simp only [Renderer.handleToken, h2]
  simp only [resolve_pushAttr, Token.nesting_pushAttr, Token.content_pushAttr,
    Token.tag_pushAttr, renderAttrs_pushAttr_twice] at hok ⊢
  rw [htr] at hok ⊢
  simp only [Bool.not_true, Bool.false_eq_true, if_false] at hok ⊢
  exact hok

/-- The default renderer's registered token-handler rules, by key. -/
theorem defaultRenderer_rules_softbreak :
    defaultRenderer.tokenHandlerRules "softbreak" = some (softbreakRule defaultRenderer) := rfl

theorem defaultRenderer_rules_em_open :
    defaultRenderer.tokenHandlerRules "em_open" =
      some (Renderer.preserveMarkupRule defaultRenderer) := rfl

theorem defaultRenderer_rules_strong_open :
    defaultRenderer.tokenHandlerRules "strong_open" =
      some (Renderer.preserveMarkupRule defaultRenderer) := rfl

theorem defaultRenderer_rules_none (ty : String) (h1 : ty ≠ "softbreak")
    (h2 : ty ≠ "em_open") (h3 : ty ≠ "strong_open") :
    defaultRenderer.tokenHandlerRules ty = none := by
  simp [defaultRenderer, Renderer.new, defaultTokenHandlerRules, Option.elim,
    h1, h2, h3]

theorem Token.type_setChildren (t : Token) (cs : Option (List Token)) :
    (t.setChildren cs).type = t.type := by cases t; rfl

theorem Token.children_setChildren (t : Token) (cs : Option (List Token)) :
    (t.setChildren cs).children = cs := by cases t; rfl

theorem Token.setChildren_setChildren (t : Token) (a b : Option (List Token)) :
    (t.setChildren a).setChildren b = t.setChildren b := by cases t; rfl

theorem getD_set_lt (ts : List Token) (i : Nat) (a : Token) (h : i < ts.length) :
    (ts.set i a).getD i dtok = a := by
  rw [List.getD_eq_getElem?_getD, List.getElem?_set_self h]
  rfl

theorem mutTokFlat_softbreak (t : Token) (h : t.type = "softbreak") :
    mutTokFlat t = t.pushAttr "data-softbreak" "true" := by
  simp [mutTokFlat, h]

theorem mutTokFlat_markup (t : Token)
    (h : t.type = "em_open" ∨ t.type = "strong_open") :
    mutTokFlat t = t.pushAttr "data-markup" t.markup := by
  rcases h with h | h <;> simp [mutTokFlat, h]

theorem mutTokFlat_id (t : Token) (h1 : t.type ≠ "softbreak")
    (h2 : t.type ≠ "em_open") (h3 : t.type ≠ "strong_open") :
    mutTokFlat t = t := by
  simp [mutTokFlat, h1, h2, h3]

theorem mutTokFlat_type (t : Token) : (mutTokFlat t).type = t.type := by
  unfold mutTokFlat
  split_ifs <;> simp [Token.type_pushAttr]

theorem mutTokFlat_markup_field (t : Token) : (mutTokFlat t).markup = t.markup := by
  unfold mutTokFlat
  split_ifs <;> simp [Token.markup_pushAttr]

theorem mutTok_inline (t : Token) (h : t.type = "inline") :
    mutTok t = t.setChildren (t.children.map (fun kids => kids.map mutTokFlat)) := by
  simp [mutTok, h]

theorem mutTok_flat (t : Token) (h : t.type ≠ "inline") :
    mutTok t = mutTokFlat t := by
  simp [mutTok, h]

theorem mutTok_type (t : Token) : (mutTok t).type = t.type := by
  unfold mutTok
  split_ifs with h
  · simp [Token.type_setChildren]
  · exact mutTokFlat_type t

/-- The loop-order segment mutation is the pointwise mutation on the
processed segment. -/
theorem mutSeg_eq (f : Token → Token) :
    ∀ (count i : Nat) (ts : List Token), i + count = ts.length →
    mutSeg f count i ts = ts.take i ++ (ts.drop i).map f
  | 0, i, ts, h => by
    simp only [mutSeg]
    have : i = ts.length := by omega
    subst this
    simp [List.take_length, List.drop_length]
  | count + 1, i, ts, h => by
    have hlt : i < ts.length := by omega
    have hd : ts.getD i dtok = ts[i] := by
      rw [List.getD_eq_getElem?_getD, List.getElem?_eq_getElem hlt]
      rfl
    have hset : ts.set i (f (ts.getD i dtok))
        = ts.take i ++ f ts[i] :: ts.drop (i + 1) := by
      rw [hd, List.set_eq_take_cons_drop _ hlt]
    have hih := mutSeg_eq f count (i + 1) (ts.set i (f (ts.getD i dtok)))
      (by rw [List.length_set]; omega)
    have htake : (ts.set i (f (ts.getD i dtok))).take (i + 1)
        = ts.take i ++ [f ts[i]] := by
      rw [hset, show i + 1 = (ts.take i).length + 1 by
        rw [List.length_take]; omega]
      rw [List.take_append]
      rfl
    have hdrop : (ts.set i (f (ts.getD i dtok))).drop (i + 1)
        = ts.drop (i + 1) := by
      rw [hset, show i + 1 = (ts.take i).length + 1 by
        rw [List.length_take]; omega]
      rw [List.drop_append]
      rfl
    simp only [mutSeg]
    rw [hih, htake, hdrop]
    rw [List.append_assoc, List.singleton_append,
      ← List.map_cons, ← List.drop_eq_getElem_cons hlt]

/-- One full pass mutates every token pointwise. -/
theorem mutSeg_full (f : Token → Token) (ts : List Token) :
    mutSeg f ts.length 0 ts = ts.map f := by
  rw [mutSeg_eq f ts.length 0 ts (by omega)]
  simp

/-! Dispatch of the default renderer, by token type. -/

theorem dispatchInline_softbreak (ts : List Token) (i : Nat) (env : RendererEnv)
    (hty : (ts.getD i dtok).type = "softbreak") :
    defaultRenderer.dispatchInline ts i env =
      softbreakRule defaultRenderer ts i env := by
  simp only [Renderer.dispatchInline, hty, defaultRenderer_rules_softbreak]

theorem dispatchInline_markup (ts : List Token) (i : Nat) (env : RendererEnv)
    (hty : (ts.getD i dtok).type = "em_open" ∨ (ts.getD i dtok).type = "strong_open") :
    defaultRenderer.dispatchInline ts i env =
      Renderer.preserveMarkupRule defaultRenderer ts i env := by
  rcases hty with hty | hty
  · simp only [Renderer.dispatchInline, hty, defaultRenderer_rules_em_open]
  · simp only [Renderer.dispatchInline, hty, defaultRenderer_rules_strong_open]

theorem dispatchInline_norule (r : Renderer) (ts : List Token) (i : Nat)
    (env : RendererEnv) (hnone : r.tokenHandlerRules (ts.getD i dtok).type = none) :
    r.dispatchInline ts i env =
      (match r.handleToken ts i env with
       | .error e => .error e
       | .ok (node, env') => .ok (node, ts, env')) := by
  simp only [Renderer.dispatchInline, hnone]

theorem dispatchBlock_ruled (r : Renderer) (ts : List Token) (i : Nat)
    (env : RendererEnv) (rule : TokenHandlerRule)
    (hrule : r.tokenHandlerRules (ts.getD i dtok).type = some rule)
    (hni : (ts.getD i dtok).type ≠ "inline") :
    r.dispatchBlock ts i env =
      (match rule ts i env with
       | .error e => .error e
       | .ok (.null, tokens', env') =>
         (match r.handleToken tokens' i env' with
          | .error e => .error e
          | .ok (node', env'') => .ok (node', tokens', env''))
       | .ok (node, tokens', env') => .ok (node, tokens', env')) := by
  simp only [Renderer.dispatchBlock]
  rw [if_neg (by simpa using hni)]
  simp only [hrule]
  cases hr : rule ts i env with
  | error e => simp only [hr]
  | ok res =>
    obtain ⟨node, tokens', env'⟩ := res
    simp only [hr]
    cases node <;> rfl

theorem dispatchBlock_inline (r : Renderer) (ts : List Token) (i : Nat)
    (env : RendererEnv) (hty : (ts.getD i dtok).type = "inline") :
    r.dispatchBlock ts i env =
      (match r.renderInline ((ts.getD i dtok).children.getD []) env with
       | .error e => .error e
       | .ok (node, kids', env') =>
         .ok (node, ts.set i ((ts.getD i dtok).setChildren
           ((ts.getD i dtok).children.map (fun _ => kids'))), env')) := by
  simp only [Renderer.dispatchBlock, hty]
  rw [if_pos (by rfl)]

/-- One pass of the inline loop mutates exactly the dispatched tokens, in
loop order. -/
theorem inlineLoop_mutates :
    ∀ (count i : Nat) (ts : List Token) (env : RendererEnv)
      (outs : List ReactNode) (ts' : List Token) (env' : RendererEnv),
    i + count ≤ ts.length →
    defaultRenderer.inlineLoop count i ts env = .ok (outs, ts', env') →
    ts' = mutSeg mutTokFlat count i ts
  | 0, i, ts, env, outs, ts', env', _, h => by
    simp only [Renderer.inlineLoop] at h
    obtain ⟨-, h2, -⟩ := by simpa using h
    simp only [mutSeg]
    exact h2.symm
  | count + 1, i, ts, env, outs, ts', env', hle, h => by
    have hlt : i < ts.length := by omega
    simp only [Renderer.inlineLoop] at h
    by_cases hsb : (ts.getD i dtok).type = "softbreak"
    · rw [dispatchInline_softbreak ts i env hsb] at h
      simp only [softbreakRule] at h
      cases hh : defaultRenderer.handleToken
          (ts.set i ((ts.getD i dtok).pushAttr "data-softbreak" "true")) i env with
      | error e => rw [hh] at h; simp at h
      | ok q =>
        obtain ⟨node, env2⟩ := q
        rw [hh] at h
        dsimp only at h
        cases hl : defaultRenderer.inlineLoop count (i + 1)
            (ts.set i ((ts.getD i dtok).pushAttr "data-softbreak" "true")) env2 with
        | error e => rw [hl] at h; simp at h
        | ok q2 =>
          obtain ⟨outs2, ts2, env3⟩ := q2
          rw [hl] at h
          obtain ⟨-, hts, -⟩ := by simpa using h
          have hih := inlineLoop_mutates count (i + 1) _ env2 outs2 ts2 env3
            (by rw [List.length_set]; omega) hl
          simp only [mutSeg, mutTokFlat_softbreak _ hsb]
          rw [← hts]
          exact hih
    · by_cases hm : (ts.getD i dtok).type = "em_open" ∨
          (ts.getD i dtok).type = "strong_open"
      · rw [dispatchInline_markup ts i env hm] at h
        simp only [Renderer.preserveMarkupRule] at h
        cases hh : defaultRenderer.handleToken
            (ts.set i ((ts.getD i dtok).pushAttr "data-markup"
              (ts.getD i dtok).markup)) i env with
        | error e => rw [hh] at h; simp at h
        | ok q =>
          obtain ⟨node, env2⟩ := q
          rw [hh] at h
          dsimp only at h
          cases hl : defaultRenderer.inlineLoop count (i + 1)
              (ts.set i ((ts.getD i dtok).pushAttr "data-markup"
                (ts.getD i dtok).markup)) env2 with
          | error e => rw [hl] at h; simp at h
          | ok q2 =>
            obtain ⟨outs2, ts2, env3⟩ := q2
            rw [hl] at h
            obtain ⟨-, hts, -⟩ := by simpa using h
            have hih := inlineLoop_mutates count (i + 1) _ env2 outs2 ts2 env3
              (by rw [List.length_set]; omega) hl
            simp only [mutSeg, mutTokFlat_markup _ hm]
            rw [← hts]
            exact hih
      · push_neg at hm
        have hnone := defaultRenderer_rules_none _ hsb hm.1 hm.2
        rw [dispatchInline_norule defaultRenderer ts i env hnone] at h
        cases hh : defaultRenderer.handleToken ts i env with
        | error e => rw [hh] at h; simp at h
        | ok q =>
          obtain ⟨node, env2⟩ := q
          rw [hh] at h
          dsimp only at h
          cases hl : defaultRenderer.inlineLoop count (i + 1) ts env2 with
          | error e => rw [hl] at h; simp at h
          | ok q2 =>
            obtain ⟨outs2, ts2, env3⟩ := q2
            rw [hl] at h
            obtain ⟨-, hts, -⟩ := by simpa using h
            have hih := inlineLoop_mutates count (i + 1) ts env2 outs2 ts2 env3
              (by omega) hl
            simp only [mutSeg, mutTokFlat_id _ hsb hm.1 hm.2, set_getD_self ts i hlt]
            rw [← hts]
            exact hih

/-- Re-running the inline loop on the once-mutated tokens yields the same
emissions and environment, and mutates each processed token once more. -/
theorem inlineLoop_remut :
    ∀ (count i : Nat) (ts : List Token) (env : RendererEnv)
      (outs : List ReactNode) (ts' : List Token) (env' : RendererEnv),
    i + count ≤ ts.length →
    defaultRenderer.inlineLoop count i ts env = .ok (outs, ts', env') →
    defaultRenderer.inlineLoop count i (ts.map mutTokFlat) env =
      .ok (outs, ts'.map mutTokFlat, env')
  | 0, i, ts, env, outs, ts', env', _, h => by
    simp only [Renderer.inlineLoop] at h ⊢
    obtain ⟨h1, h2, h3⟩ := by simpa using h
    subst h1 h2 h3
    rfl
  | count + 1, i, ts, env, outs, ts', env', hle, h => by
    have hlt : i < ts.length := by omega
    have hltm : i < (ts.map mutTokFlat).length := by
      rw [List.length_map]; omega
    simp only [Renderer.inlineLoop] at h ⊢
    by_cases hsb : (ts.getD i dtok).type = "softbreak"
    · rw [dispatchInline_softbreak ts i env hsb] at h
      simp only [softbreakRule] at h
      cases hh : defaultRenderer.handleToken
          (ts.set i ((ts.getD i dtok).pushAttr "data-softbreak" "true")) i env with
      | error e => rw [hh] at h; simp at h
      | ok q =>
        obtain ⟨node, env2⟩ := q
        rw [hh] at h
        dsimp only at h
        cases hl : defaultRenderer.inlineLoop count (i + 1)
            (ts.set i ((ts.getD i dtok).pushAttr "data-softbreak" "true")) env2 with
        | error e => rw [hl] at h; simp at h
        | ok q2 =>
          obtain ⟨outs2, ts2, env3⟩ := q2
          rw [hl] at h
          obtain ⟨h1, h2, h3⟩ := by simpa using h
          subst h1 h2 h3
          have hgm : (ts.map mutTokFlat).getD i dtok
              = (ts.getD i dtok).pushAttr "data-softbreak" "true" := by
            rw [getD_map_lt _ _ _ hlt, mutTokFlat_softbreak _ hsb]
          rw [dispatchInline_softbreak (ts.map mutTokFlat) i env
            (by rw [hgm, Token.type_pushAttr]; exact hsb)]
          simp only [softbreakRule, hgm]
          have hhk : defaultRenderer.handleToken
              ((ts.map mutTokFlat).set i
                (((ts.getD i dtok).pushAttr "data-softbreak" "true").pushAttr
                  "data-softbreak" "true")) i env = .ok (node, env2) :=
            handleToken_mut_twice defaultRenderer _ _ i env (ts.getD i dtok)
              "data-softbreak" "true" (node, env2)
              (getD_set_lt ts i _ hlt) (getD_set_lt (ts.map mutTokFlat) i _ hltm) hh
          rw [hhk]
          dsimp only
          have hmapset : (ts.map mutTokFlat).set i
              (((ts.getD i dtok).pushAttr "data-softbreak" "true").pushAttr
                "data-softbreak" "true")
              = (ts.set i ((ts.getD i dtok).pushAttr "data-softbreak" "true")).map
                  mutTokFlat := by
            rw [List.map_set, mutTokFlat_softbreak _
              (by rw [Token.type_pushAttr]; exact hsb)]
          rw [hmapset]
          rw [inlineLoop_remut count (i + 1) _ env2 outs2 ts2 env3
            (by rw [List.length_set]; omega) hl]
    · by_cases hm : (ts.getD i dtok).type = "em_open" ∨
          (ts.getD i dtok).type = "strong_open"
      · rw [dispatchInline_markup ts i env hm] at h
        simp only [Renderer.preserveMarkupRule] at h
        cases hh : defaultRenderer.handleToken
            (ts.set i ((ts.getD i dtok).pushAttr "data-markup"
              (ts.getD i dtok).markup)) i env with
        | error e => rw [hh] at h; simp at h
        | ok q =>
          obtain ⟨node, env2⟩ := q
          rw [hh] at h
          dsimp only at h
          cases hl : defaultRenderer.inlineLoop count (i + 1)
              (ts.set i ((ts.getD i dtok).pushAttr "data-markup"
                (ts.getD i dtok).markup)) env2 with
          | error e => rw [hl] at h; simp at h
          | ok q2 =>
            obtain ⟨outs2, ts2, env3⟩ := q2
            rw [hl] at h
            obtain ⟨h1, h2, h3⟩ := by simpa using h
            subst h1 h2 h3
            have hgm : (ts.map mutTokFlat).getD i dtok
                = (ts.getD i dtok).pushAttr "data-markup" (ts.getD i dtok).markup := by
              rw [getD_map_lt _ _ _ hlt, mutTokFlat_markup _ hm]
            have hmty : ((ts.map mutTokFlat).getD i dtok).type = "em_open" ∨
                ((ts.map mutTokFlat).getD i dtok).type = "strong_open" := by
              rw [hgm, Token.type_pushAttr]
              exact hm
            rw [dispatchInline_markup (ts.map mutTokFlat) i env hmty]
            simp only [Renderer.preserveMarkupRule, hgm, Token.markup_pushAttr]
            have hhk : defaultRenderer.handleToken
                ((ts.map mutTokFlat).set i
                  (((ts.getD i dtok).pushAttr "data-markup"
                      (ts.getD i dtok).markup).pushAttr "data-markup"
                    (ts.getD i dtok).markup)) i env = .ok (node, env2) :=
              handleToken_mut_twice defaultRenderer _ _ i env (ts.getD i dtok)
                "data-markup" (ts.getD i dtok).markup (node, env2)
                (getD_set_lt ts i _ hlt) (getD_set_lt (ts.map mutTokFlat) i _ hltm) hh
            rw [hhk]
            dsimp only
            have hmapset : (ts.map mutTokFlat).set i
                (((ts.getD i dtok).pushAttr "data-markup"
                    (ts.getD i dtok).markup).pushAttr "data-markup"
                  (ts.getD i dtok).markup)
                = (ts.set i ((ts.getD i dtok).pushAttr "data-markup"
                    (ts.getD i dtok).markup)).map mutTokFlat := by
              rw [List.map_set, mutTokFlat_markup _
                (by rw [Token.type_pushAttr]; exact hm), Token.markup_pushAttr]
            rw [hmapset]
            rw [inlineLoop_remut count (i + 1) _ env2 outs2 ts2 env3
              (by rw [List.length_set]; omega) hl]
      · push_neg at hm
        have hnone := defaultRenderer_rules_none _ hsb hm.1 hm.2
        rw [dispatchInline_norule defaultRenderer ts i env hnone] at h
        cases hh : defaultRenderer.handleToken ts i env with
        | error e => rw [hh] at h; simp at h
        | ok q =>
          obtain ⟨node, env2⟩ := q
          rw [hh] at h
          dsimp only at h
          cases hl : defaultRenderer.inlineLoop count (i + 1) ts env2 with
          | error e => rw [hl] at h; simp at h
          | ok q2 =>
            obtain ⟨outs2, ts2, env3⟩ := q2
            rw [hl] at h
            obtain ⟨h1, h2, h3⟩ := by simpa using h
            subst h1 h2 h3
            have hid : mutTokFlat (ts.getD i dtok) = ts.getD i dtok :=
              mutTokFlat_id _ hsb hm.1 hm.2
            have hgm : (ts.map mutTokFlat).getD i dtok = ts.getD i dtok := by
              rw [getD_map_lt _ _ _ hlt, hid]
            rw [dispatchInline_norule defaultRenderer (ts.map mutTokFlat) i env
              (by rw [hgm]; exact hnone)]
            rw [handleToken_getD_congr defaultRenderer (ts.map mutTokFlat) ts i env hgm,
              hh]
            dsimp only
            rw [inlineLoop_remut count (i + 1) ts env2 outs2 ts2 env3 (by omega) hl]

theorem children_const_map (t : Token) (f : Token → Token) :
    t.children.map (fun _ => (t.children.getD []).map f)
      = t.children.map (fun kids => kids.map f) := by
  cases t with
  | mk ty tg n c a m cs => cases cs <;> rfl

theorem mutTok_children_getD (t : Token) (h : t.type = "inline") :
    (mutTok t).children.getD [] = (t.children.getD []).map mutTokFlat := by
  rw [mutTok_inline _ h, Token.children_setChildren]
  cases t with
  | mk ty tg n c a m cs => cases cs <;> rfl

theorem option_map_const {α β γ : Type} (o : Option α) (g : α → β) (y : γ) :
    (o.map g).map (fun _ => y) = o.map (fun _ => y) := by
  cases o <;> rfl

theorem option_map_list_map (o : Option (List Token)) (y : List Token)
    (f : Token → Token) :
    (o.map (fun _ => y)).map (fun l => l.map f) = o.map (fun _ => y.map f) := by
  cases o <;> rfl

/-- One pass of `render`'s loop mutates exactly the dispatched tokens (and,
inside inline containers, their children), in loop order. -/
theorem blockLoop_mutates :
    ∀ (count i : Nat) (ts : List Token) (env : RendererEnv)
      (outs : List ReactNode) (ts' : List Token) (env' : RendererEnv),
    i + count ≤ ts.length →
    defaultRenderer.blockLoop count i ts env = .ok (outs, ts', env') →
    ts' = mutSeg mutTok count i ts
  | 0, i, ts, env, outs, ts', env', _, h => by
    simp only [Renderer.blockLoop] at h
    obtain ⟨-, h2, -⟩ := by simpa using h
    simp only [mutSeg]
    exact h2.symm
  | count + 1, i, ts, env, outs, ts', env', hle, h => by
    have hlt : i < ts.length := by omega
    simp only [Renderer.blockLoop] at h
    have hcont : ∀ (ts1 : List Token) (nd : ReactNode) (envX : RendererEnv),
        ts1 = ts.set i (mutTok (ts.getD i dtok)) →
        (match defaultRenderer.blockLoop count (i + 1) ts1 envX with
         | Except.error e => Except.error e
         | Except.ok (nodes, tk, e) => Except.ok (nd :: nodes, tk, e))
          = Except.ok (outs, ts', env') →
        ts' = mutSeg mutTok (count + 1) i ts := by
      intro ts1 nd envX hts1 hX
      cases hl : defaultRenderer.blockLoop count (i + 1) ts1 envX with
      | error e => rw [hl] at hX; simp at hX
      | ok q2 =>
        obtain ⟨outs2, ts2, env3⟩ := q2
        rw [hl] at hX
        obtain ⟨-, hts, -⟩ := by simpa using hX
        have hih := blockLoop_mutates count (i + 1) ts1 envX outs2 ts2 env3
          (by rw [hts1, List.length_set]; omega) hl
        simp only [mutSeg]
        rw [← hts, ← hts1]
        exact hih
    by_cases hin : (ts.getD i dtok).type = "inline"
    · rw [dispatchBlock_inline defaultRenderer ts i env hin] at h
      simp only [Renderer.renderInline] at h
      cases hk : defaultRenderer.inlineLoop ((ts.getD i dtok).children.getD []).length 0
          ((ts.getD i dtok).children.getD []) env with
      | error e => rw [hk] at h; simp at h
      | ok qk =>
        obtain ⟨outsK, kidsK, envK⟩ := qk
        rw [hk] at h
        dsimp only at h
        have hkm := inlineLoop_mutates _ 0 _ env outsK kidsK envK (by omega) hk
        rw [mutSeg_full] at hkm
        refine hcont _ _ envK ?_ h
        rw [hkm, mutTok_inline _ hin]
        congr 1
        rw [children_const_map]
    · by_cases hsb : (ts.getD i dtok).type = "softbreak"
      · rw [dispatchBlock_ruled defaultRenderer ts i env (softbreakRule defaultRenderer)
          (by rw [hsb]; exact defaultRenderer_rules_softbreak) (by rw [hsb]; decide)] at h
        simp only [softbreakRule] at h
        cases hh : defaultRenderer.handleToken
            (ts.set i ((ts.getD i dtok).pushAttr "data-softbreak" "true")) i env with
        | error e => rw [hh] at h; simp at h
        | ok q =>
          obtain ⟨node, env2⟩ := q
          rw [hh] at h
          dsimp only at h
          have hts1 : ts.set i ((ts.getD i dtok).pushAttr "data-softbreak" "true")
              = ts.set i (mutTok (ts.getD i dtok)) := by
            rw [mutTok_flat _ (by rw [hsb]; decide), mutTokFlat_softbreak _ hsb]
          cases node with
          | null =>
            dsimp only at h
            cases hh2 : defaultRenderer.handleToken
                (ts.set i ((ts.getD i dtok).pushAttr "data-softbreak" "true")) i env2 with
            | error e => rw [hh2] at h; simp at h
            | ok q2 =>
              obtain ⟨node2, env3⟩ := q2
              rw [hh2] at h
              dsimp only at h
              exact hcont _ node2 env3 hts1 h
          | text s => dsimp only at h; exact hcont _ _ env2 hts1 h
          | list xs => dsimp only at h; exact hcont _ _ env2 hts1 h
          | element a b c => dsimp only at h; exact hcont _ _ env2 hts1 h
          | fragment n c => dsimp only at h; exact hcont _ _ env2 hts1 h
      · by_cases hm : (ts.getD i dtok).type = "em_open" ∨
            (ts.getD i dtok).type = "strong_open"
        · have hlook : defaultRenderer.tokenHandlerRules (ts.getD i dtok).type =
              some (Renderer.preserveMarkupRule defaultRenderer) := by
            rcases hm with hm | hm
            · rw [hm]; exact defaultRenderer_rules_em_open
            · rw [hm]; exact defaultRenderer_rules_strong_open
          have hnin : (ts.getD i dtok).type ≠ "inline" := hin
          rw [dispatchBlock_ruled defaultRenderer ts i env
            (Renderer.preserveMarkupRule defaultRenderer) hlook hnin] at h
          simp only [Renderer.preserveMarkupRule] at h
          cases hh : defaultRenderer.handleToken
              (ts.set i ((ts.getD i dtok).pushAttr "data-markup"
                (ts.getD i dtok).markup)) i env with
          | error e => rw [hh] at h; simp at h
          | ok q =>
            obtain ⟨node, env2⟩ := q
            rw [hh] at h
            dsimp only at h
            have hts1 : ts.set i ((ts.getD i dtok).pushAttr "data-markup"
                (ts.getD i dtok).markup)
                = ts.set i (mutTok (ts.getD i dtok)) := by
              rw [mutTok_flat _ hin, mutTokFlat_markup _ hm]
            cases node with
            | null =>
              dsimp only at h
              cases hh2 : defaultRenderer.handleToken
                  (ts.set i ((ts.getD i dtok).pushAttr "data-markup"
                    (ts.getD i dtok).markup)) i env2 with
              | error e => rw [hh2] at h; simp at h
              | ok q2 =>
                obtain ⟨node2, env3⟩ := q2
                rw [hh2] at h
                dsimp only at h
                exact hcont _ node2 env3 hts1 h
            | text s => dsimp only at h; exact hcont _ _ env2 hts1 h
            | list xs => dsimp only at h; exact hcont _ _ env2 hts1 h
            | element a b c => dsimp only at h; exact hcont _ _ env2 hts1 h
            | fragment n c => dsimp only at h; exact hcont _ _ env2 hts1 h
        · push_neg at hm
          have hnone := defaultRenderer_rules_none _ hsb hm.1 hm.2
          rw [dispatchBlock_plain defaultRenderer ts i env hin hnone] at h
          cases hh : defaultRenderer.handleToken ts i env with
          | error e => rw [hh] at h; simp at h
          | ok q =>
            obtain ⟨node, env2⟩ := q
            rw [hh] at h
            dsimp only at h
            refine hcont ts node env2 ?_ h
            rw [mutTok_flat _ hin, mutTokFlat_id _ hsb hm.1 hm.2,
              set_getD_self ts i hlt]

/-- Re-running `render`'s loop on the once-mutated tokens yields the same
emissions and environment, and mutates each processed token once more. -/
theorem blockLoop_remut :
    ∀ (count i : Nat) (ts : List Token) (env : RendererEnv)
      (outs : List ReactNode) (ts' : List Token) (env' : RendererEnv),
    i + count ≤ ts.length →
    defaultRenderer.blockLoop count i ts env = .ok (outs, ts', env') →
    defaultRenderer.blockLoop count i (ts.map mutTok) env =
      .ok (outs, ts'.map mutTok, env')
  | 0, i, ts, env, outs, ts', env', _, h => by
    simp only [Renderer.blockLoop] at h ⊢
    obtain ⟨h1, h2, h3⟩ := by simpa using h
    subst h1 h2 h3
    rfl
  | count + 1, i, ts, env, outs, ts', env', hle, h => by
    have hlt : i < ts.length := by omega
    have hltm : i < (ts.map mutTok).length := by rw [List.length_map]; omega
    simp only [Renderer.blockLoop] at h ⊢
    by_cases hin : (ts.getD i dtok).type = "inline"
    · rw [dispatchBlock_inline defaultRenderer ts i env hin] at h
      simp only [Renderer.renderInline] at h
      cases hk : defaultRenderer.inlineLoop ((ts.getD i dtok).children.getD []).length 0
          ((ts.getD i dtok).children.getD []) env with
      | error e => rw [hk] at h; simp at h
      | ok qk =>
        obtain ⟨outsK, kidsK, envK⟩ := qk
        rw [hk] at h
        dsimp only at h
        cases hl : defaultRenderer.blockLoop count (i + 1)
            (ts.set i ((ts.getD i dtok).setChildren
              ((ts.getD i dtok).children.map (fun _ => kidsK)))) envK with
        | error e => rw [hl] at h; simp at h
        | ok q2 =>
          obtain ⟨outs2, ts2, env3⟩ := q2
          rw [hl] at h
          obtain ⟨h1, h2, h3⟩ := by simpa using h
          subst h1 h2 h3
          have hgm : (ts.map mutTok).getD i dtok = mutTok (ts.getD i dtok) :=
            getD_map_lt _ _ _ hlt
          have htyM : ((ts.map mutTok).getD i dtok).type = "inline" := by
            rw [hgm, mutTok_type]
            exact hin
          rw [dispatchBlock_inline defaultRenderer (ts.map mutTok) i env htyM]
          simp only [Renderer.renderInline, hgm, mutTok_children_getD _ hin,
        List.length_map]
          rw [inlineLoop_remut _ 0 _ env outsK kidsK envK (by omega) hk]
          dsimp only
          have hW : (ts.map mutTok).set i
              ((mutTok (ts.getD i dtok)).setChildren
                ((mutTok (ts.getD i dtok)).children.map (fun _ => kidsK.map mutTokFlat)))
              = (ts.set i ((ts.getD i dtok).setChildren
                  ((ts.getD i dtok).children.map (fun _ => kidsK)))).map mutTok := by
            rw [List.map_set]
            congr 1
            rw [mutTok_inline _ hin, Token.children_setChildren,
              Token.setChildren_setChildren, option_map_const]
            rw [mutTok_inline _ (by rw [Token.type_setChildren]; exact hin),
              Token.setChildren_setChildren, Token.children_setChildren,
              option_map_list_map]
          rw [hW]
          rw [blockLoop_remut count (i + 1) _ envK outs2 ts2 env3
            (by rw [List.length_set]; omega) hl]
    · by_cases hsb : (ts.getD i dtok).type = "softbreak"
      · rw [dispatchBlock_ruled defaultRenderer ts i env (softbreakRule defaultRenderer)
          (by rw [hsb]; exact defaultRenderer_rules_softbreak) (by rw [hsb]; decide)] at h
        simp only [softbreakRule] at h
        cases hh : defaultRenderer.handleToken
            (ts.set i ((ts.getD i dtok).pushAttr "data-softbreak" "true")) i env with
        | error e => rw [hh] at h; simp at h
        | ok q =>
          obtain ⟨node, env2⟩ := q
          rw [hh] at h
          dsimp only at h
          have hgm : (ts.map mutTok).getD i dtok
              = (ts.getD i dtok).pushAttr "data-softbreak" "true" := by
            rw [getD_map_lt _ _ _ hlt, mutTok_flat _ (by rw [hsb]; decide),
              mutTokFlat_softbreak _ hsb]
          have hlook2 : defaultRenderer.tokenHandlerRules
              ((ts.map mutTok).getD i dtok).type = some (softbreakRule defaultRenderer) := by
            rw [hgm, Token.type_pushAttr, hsb]
            exact defaultRenderer_rules_softbreak
          rw [dispatchBlock_ruled defaultRenderer (ts.map mutTok) i env
            (softbreakRule defaultRenderer) hlook2
            (by rw [hgm, Token.type_pushAttr, hsb]; decide)]
          simp only [softbreakRule, hgm]
          have hhk : defaultRenderer.handleToken
              ((ts.map mutTok).set i
                (((ts.getD i dtok).pushAttr "data-softbreak" "true").pushAttr
                  "data-softbreak" "true")) i env = .ok (node, env2) :=
            handleToken_mut_twice defaultRenderer _ _ i env (ts.getD i dtok)
              "data-softbreak" "true" (node, env2)
              (getD_set_lt ts i _ hlt) (getD_set_lt (ts.map mutTok) i _ hltm) hh
          rw [hhk]
          have hmapset : (ts.map mutTok).set i
              (((ts.getD i dtok).pushAttr "data-softbreak" "true").pushAttr
                "data-softbreak" "true")
              = (ts.set i ((ts.getD i dtok).pushAttr "data-softbreak" "true")).map
                  mutTok := by
            rw [List.map_set, mutTok_flat _ (by rw [Token.type_pushAttr, hsb]; decide),
              mutTokFlat_softbreak _ (by rw [Token.type_pushAttr]; exact hsb)]
          cases node with
          | null =>
            dsimp only at h ⊢
            cases hh2 : defaultRenderer.handleToken
                (ts.set i ((ts.getD i dtok).pushAttr "data-softbreak" "true")) i env2 with
            | error e => rw [hh2] at h; simp at h
            | ok q2 =>
              obtain ⟨node2, env3⟩ := q2
              rw [hh2] at h
              dsimp only at h
              have hhk2 : defaultRenderer.handleToken
                  ((ts.map mutTok).set i
                    (((ts.getD i dtok).pushAttr "data-softbreak" "true").pushAttr
                      "data-softbreak" "true")) i env2 = .ok (node2, env3) :=
                handleToken_mut_twice defaultRenderer _ _ i env2 (ts.getD i dtok)
                  "data-softbreak" "true" (node2, env3)
                  (getD_set_lt ts i _ hlt) (getD_set_lt (ts.map mutTok) i _ hltm) hh2
              rw [hhk2]
              dsimp only
              cases hl : defaultRenderer.blockLoop count (i + 1)
                  (ts.set i ((ts.getD i dtok).pushAttr "data-softbreak" "true")) env3 with
              | error e => rw [hl] at h; simp at h
              | ok q3 =>
                obtain ⟨outs2, ts2, env4⟩ := q3
                rw [hl] at h
                obtain ⟨h1, h2, h3⟩ := by simpa using h
                subst h1 h2 h3
                rw [hmapset]
                rw [blockLoop_remut count (i + 1) _ env3 outs2 ts2 env4
                  (by rw [List.length_set]; omega) hl]
          | text s =>
            dsimp only at h ⊢
            cases hl : defaultRenderer.blockLoop count (i + 1)
                (ts.set i ((ts.getD i dtok).pushAttr "data-softbreak" "true")) env2 with
            | error e => rw [hl] at h; simp at h
            | ok q3 =>
              obtain ⟨outs2, ts2, env4⟩ := q3
              rw [hl] at h
              obtain ⟨h1, h2, h3⟩ := by simpa using h
              subst h1 h2 h3
              rw [hmapset]
              rw [blockLoop_remut count (i + 1) _ env2 outs2 ts2 env4
                (by rw [List.length_set]; omega) hl]
          | list xs =>
            dsimp only at h ⊢
            cases hl : defaultRenderer.blockLoop count (i + 1)
                (ts.set i ((ts.getD i dtok).pushAttr "data-softbreak" "true")) env2 with
            | error e => rw [hl] at h; simp at h
            | ok q3 =>
              obtain ⟨outs2, ts2, env4⟩ := q3
              rw [hl] at h
              obtain ⟨h1, h2, h3⟩ := by simpa using h
              subst h1 h2 h3
              rw [hmapset]
              rw [blockLoop_remut count (i + 1) _ env2 outs2 ts2 env4
                (by rw [List.length_set]; omega) hl]
          | element a b cc =>
            dsimp only at h ⊢
            cases hl : defaultRenderer.blockLoop count (i + 1)
                (ts.set i ((ts.getD i dtok).pushAttr "data-softbreak" "true")) env2 with
            | error e => rw [hl] at h; simp at h
            | ok q3 =>
              obtain ⟨outs2, ts2, env4⟩ := q3
              rw [hl] at h
              obtain ⟨h1, h2, h3⟩ := by simpa using h
              subst h1 h2 h3
              rw [hmapset]
              rw [blockLoop_remut count (i + 1) _ env2 outs2 ts2 env4
                (by rw [List.length_set]; omega) hl]
          | fragment n cc =>
            dsimp only at h ⊢
            cases hl : defaultRenderer.blockLoop count (i + 1)
                (ts.set i ((ts.getD i dtok).pushAttr "data-softbreak" "true")) env2 with
            | error e => rw [hl] at h; simp at h
            | ok q3 =>
              obtain ⟨outs2, ts2, env4⟩ := q3
              rw [hl] at h
              obtain ⟨h1, h2, h3⟩ := by simpa using h
              subst h1 h2 h3
              rw [hmapset]
              rw [blockLoop_remut count (i + 1) _ env2 outs2 ts2 env4
                (by rw [List.length_set]; omega) hl]
      · by_cases hm : (ts.getD i dtok).type = "em_open" ∨
            (ts.getD i dtok).type = "strong_open"
        · have hlook : defaultRenderer.tokenHandlerRules (ts.getD i dtok).type =
              some (Renderer.preserveMarkupRule defaultRenderer) := by
            rcases hm with hm | hm
            · rw [hm]; exact defaultRenderer_rules_em_open
            · rw [hm]; exact defaultRenderer_rules_strong_open
          rw [dispatchBlock_ruled defaultRenderer ts i env
            (Renderer.preserveMarkupRule defaultRenderer) hlook hin] at h
          simp only [Renderer.preserveMarkupRule] at h
          cases hh : defaultRenderer.handleToken
              (ts.set i ((ts.getD i dtok).pushAttr "data-markup"
                (ts.getD i dtok).markup)) i env with
          | error e => rw [hh] at h; simp at h
          | ok q =>
            obtain ⟨node, env2⟩ := q
            rw [hh] at h
            dsimp only at h
            have hniM : (ts.getD i dtok).type ≠ "inline" := hin
            have hgm : (ts.map mutTok).getD i dtok
                = (ts.getD i dtok).pushAttr "data-markup" (ts.getD i dtok).markup := by
              rw [getD_map_lt _ _ _ hlt, mutTok_flat _ hniM, mutTokFlat_markup _ hm]
            have hlook2 : defaultRenderer.tokenHandlerRules
                ((ts.map mutTok).getD i dtok).type =
                some (Renderer.preserveMarkupRule defaultRenderer) := by
              rw [hgm, Token.type_pushAttr]
              exact hlook
            have hninM : ((ts.map mutTok).getD i dtok).type ≠ "inline" := by
              rw [hgm, Token.type_pushAttr]
              exact hin
            rw [dispatchBlock_ruled defaultRenderer (ts.map mutTok) i env
              (Renderer.preserveMarkupRule defaultRenderer) hlook2 hninM]
            simp only [Renderer.preserveMarkupRule, hgm, Token.markup_pushAttr]
            have hhk : defaultRenderer.handleToken
                ((ts.map mutTok).set i
                  (((ts.getD i dtok).pushAttr "data-markup"
                      (ts.getD i dtok).markup).pushAttr "data-markup"
                    (ts.getD i dtok).markup)) i env = .ok (node, env2) :=
              handleToken_mut_twice defaultRenderer _ _ i env (ts.getD i dtok)
                "data-markup" (ts.getD i dtok).markup (node, env2)
                (getD_set_lt ts i _ hlt) (getD_set_lt (ts.map mutTok) i _ hltm) hh
            rw [hhk]
            have hmapset : (ts.map mutTok).set i
                (((ts.getD i dtok).pushAttr "data-markup"
                    (ts.getD i dtok).markup).pushAttr "data-markup"
                  (ts.getD i dtok).markup)
                = (ts.set i ((ts.getD i dtok).pushAttr "data-markup"
                    (ts.getD i dtok).markup)).map mutTok := by
              rw [List.map_set,
                mutTok_flat _ (by rw [Token.type_pushAttr]; exact hniM),
                mutTokFlat_markup _ (by rw [Token.type_pushAttr]; exact hm),
                Token.markup_pushAttr]
            cases node with
            | null =>
              dsimp only at h ⊢
              cases hh2 : defaultRenderer.handleToken
                  (ts.set i ((ts.getD i dtok).pushAttr "data-markup"
                    (ts.getD i dtok).markup)) i env2 with
              | error e => rw [hh2] at h; simp at h
              | ok q2 =>
                obtain ⟨node2, env3⟩ := q2
                rw [hh2] at h
                dsimp only at h
                have hhk2 : defaultRenderer.handleToken
                    ((ts.map mutTok).set i
                      (((ts.getD i dtok).pushAttr "data-markup"
                          (ts.getD i dtok).markup).pushAttr "data-markup"
                        (ts.getD i dtok).markup)) i env2 = .ok (node2, env3) :=
                  handleToken_mut_twice defaultRenderer _ _ i env2 (ts.getD i dtok)
                    "data-markup" (ts.getD i dtok).markup (node2, env3)
                    (getD_set_lt ts i _ hlt) (getD_set_lt (ts.map mutTok) i _ hltm) hh2
                rw [hhk2]
                dsimp only
                cases hl : defaultRenderer.blockLoop count (i + 1)
                    (ts.set i ((ts.getD i dtok).pushAttr "data-markup"
                      (ts.getD i dtok).markup)) env3 with
                | error e => rw [hl] at h; simp at h
                | ok q3 =>
                  obtain ⟨outs2, ts2, env4⟩ := q3
                  rw [hl] at h
                  obtain ⟨h1, h2, h3⟩ := by simpa using h
                  subst h1 h2 h3
                  rw [hmapset]
                  rw [blockLoop_remut count (i + 1) _ env3 outs2 ts2 env4
                    (by rw [List.length_set]; omega) hl]
            | text s =>
              dsimp only at h ⊢
              cases hl : defaultRenderer.blockLoop count (i + 1)
                  (ts.set i ((ts.getD i dtok).pushAttr "data-markup"
                    (ts.getD i dtok).markup)) env2 with
              | error e => rw [hl] at h; simp at h
              | ok q3 =>
                obtain ⟨outs2, ts2, env4⟩ := q3
                rw [hl] at h
                obtain ⟨h1, h2, h3⟩ := by simpa using h
                subst h1 h2 h3
                rw [hmapset]
                rw [blockLoop_remut count (i + 1) _ env2 outs2 ts2 env4
                  (by rw [List.length_set]; omega) hl]
            | list xs =>
              dsimp only at h ⊢
              cases hl : defaultRenderer.blockLoop count (i + 1)
                  (ts.set i ((ts.getD i dtok).pushAttr "data-markup"
                    (ts.getD i dtok).markup)) env2 with
              | error e => rw [hl] at h; simp at h
              | ok q3 =>
                obtain ⟨outs2, ts2, env4⟩ := q3
                rw [hl] at h
                obtain ⟨h1, h2, h3⟩ := by simpa using h
                subst h1 h2 h3
                rw [hmapset]
                rw [blockLoop_remut count (i + 1) _ env2 outs2 ts2 env4
                  (by rw [List.length_set]; omega) hl]
            | element a b cc =>
              dsimp only at h ⊢
              cases hl : defaultRenderer.blockLoop count (i + 1)
                  (ts.set i ((ts.getD i dtok).pushAttr "data-markup"
                    (ts.getD i dtok).markup)) env2 with
              | error e => rw [hl] at h; simp at h
              | ok q3 =>
                obtain ⟨outs2, ts2, env4⟩ := q3
                rw [hl] at h
                obtain ⟨h1, h2, h3⟩ := by simpa using h
                subst h1 h2 h3
                rw [hmapset]
                rw [blockLoop_remut count (i + 1) _ env2 outs2 ts2 env4
                  (by rw [List.length_set]; omega) hl]
            | fragment n cc =>
              dsimp only at h ⊢
              cases hl : defaultRenderer.blockLoop count (i + 1)
                  (ts.set i ((ts.getD i dtok).pushAttr "data-markup"
                    (ts.getD i dtok).markup)) env2 with
              | error e => rw [hl] at h; simp at h
              | ok q3 =>
                obtain ⟨outs2, ts2, env4⟩ := q3
                rw [hl] at h
                obtain ⟨h1, h2, h3⟩ := by simpa using h
                subst h1 h2 h3
                rw [hmapset]
                rw [blockLoop_remut count (i + 1) _ env2 outs2 ts2 env4
                  (by rw [List.length_set]; omega) hl]
        · push_neg at hm
          have hnone := defaultRenderer_rules_none _ hsb hm.1 hm.2
          rw [dispatchBlock_plain defaultRenderer ts i env hin hnone] at h
          cases hh : defaultRenderer.handleToken ts i env with
          | error e => rw [hh] at h; simp at h
          | ok q =>
            obtain ⟨node, env2⟩ := q
            rw [hh] at h
            dsimp only at h
            cases hl : defaultRenderer.blockLoop count (i + 1) ts env2 with
            | error e => rw [hl] at h; simp at h
            | ok q2 =>
              obtain ⟨outs2, ts2, env3⟩ := q2
              rw [hl] at h
              obtain ⟨h1, h2, h3⟩ := by simpa using h
              subst h1 h2 h3
              have hid : mutTok (ts.getD i dtok) = ts.getD i dtok := by
                rw [mutTok_flat _ hin, mutTokFlat_id _ hsb hm.1 hm.2]
              have hgm : (ts.map mutTok).getD i dtok = ts.getD i dtok := by
                rw [getD_map_lt _ _ _ hlt, hid]
              rw [dispatchBlock_plain defaultRenderer (ts.map mutTok) i env
                (by rw [hgm]; exact hin) (by rw [hgm]; exact hnone)]
              rw [handleToken_getD_congr defaultRenderer (ts.map mutTok) ts i env hgm,
                hh]
              dsimp only
              rw [blockLoop_remut count (i + 1) ts env2 outs2 ts2 env3 (by omega) hl]

/-- C9: re-running `render` on the same token sequence through a freshly
constructed context yields the same tree.  Each call builds its own
`RendererEnv`; the only state crossing calls is the in-place token mutation
of the default rules, and replaying it appends a duplicate of an attribute
pair the projection collapses, so the second call returns the identical
tree. -/
theorem render_idempotent (ts : List Token) (tree : ReactNode) (ts1 : List Token)
    (h : defaultRenderer.render ts = .ok (tree, ts1)) :
    ∃ ts2, defaultRenderer.render ts1 = .ok (tree, ts2) := by
  simp only [Renderer.render] at h ⊢
  cases hb : defaultRenderer.blockLoop ts.length 0 ts ⟨[]⟩ with
  | error e => rw [hb] at h; simp at h
  | ok q =>
    obtain ⟨children, tsb, envb⟩ := q
    rw [hb] at h
    obtain ⟨h1, h2⟩ := by simpa using h
    subst h1 h2
    have hmut := blockLoop_mutates ts.length 0 ts ⟨[]⟩ children tsb envb
      (by omega) hb
    rw [mutSeg_full] at hmut
    have hre := blockLoop_remut ts.length 0 ts ⟨[]⟩ children tsb envb
      (by omega) hb
    rw [hmut] at hre
    refine ⟨tsb.map mutTok, ?_⟩
    rw [hmut, List.length_map, hre, ← hmut]

/-- C9 witness: rendering one `softbreak` token twice (the second call on
the token array the first call mutated) yields the same tree both times. -/
theorem render_idempotent_witness :
    defaultRenderer.render [.mk "softbreak" "br" 0 "" none "" none] =
      .ok (.list [.fragment 0 (.element (.tag "br")
          [("data-softbreak", .str "true")] [])],
        [.mk "softbreak" "br" 0 "" (some [("data-softbreak", "true")]) "" none]) ∧
    ∃ ts2, defaultRenderer.render
        [.mk "softbreak" "br" 0 "" (some [("data-softbreak", "true")]) "" none] =
      .ok (.list [.fragment 0 (.element (.tag "br")
          [("data-softbreak", .str "true")] [])], ts2) :=
  ⟨rfl, render_idempotent [.mk "softbreak" "br" 0 "" none "" none]
    (.list [.fragment 0 (.element (.tag "br") [("data-softbreak", .str "true")] [])])
    [.mk "softbreak" "br" 0 "" (some [("data-softbreak", "true")]) "" none] rfl⟩

/-- C5 amended: a successful `render` with the library-provided default
rule set hands back the token array unchanged whenever no token would be
mutated by the default rules — that is, no token (top-level or inside an
inline container's children) has type `softbreak`, `em_open` or
`strong_open`.  (The counterexample shows the original claim fails for
those three types.) -/
theorem render_unruled_read_only (ts : List Token) (tree : ReactNode)
    (ts' : List Token) (hm : ∀ t ∈ ts, mutTok t = t)
    (h : defaultRenderer.render ts = .ok (tree, ts')) : ts' = ts := by
  simp only [Renderer.render] at h
  cases hb : defaultRenderer.blockLoop ts.length 0 ts ⟨[]⟩ with
  | error e => rw [hb] at h; simp at h
  | ok q =>
    obtain ⟨children, tsb, envb⟩ := q
    rw [hb] at h
    obtain ⟨-, h2⟩ := by simpa using h
    have hmut := blockLoop_mutates ts.length 0 ts ⟨[]⟩ children tsb envb
      (by omega) hb
    rw [mutSeg_full] at hmut
    rw [← h2, hmut, List.map_congr_left hm]
    simp

/-- C5 witness: a plain self-closing token (no default rule for its type)
renders successfully with its token handed back untouched. -/
theorem render_unruled_read_only_witness :
    (∀ t ∈ [Token.mk "x" "span" 0 "hi" none "" none], mutTok t = t) ∧
    defaultRenderer.render [.mk "x" "span" 0 "hi" none "" none] =
      .ok (.list [.fragment 0 (.element (.tag "span") [] [.fragment 0 (.text "hi")])],
        [.mk "x" "span" 0 "hi" none "" none]) ∧
    ([Token.mk "x" "span" 0 "hi" none "" none] : List Token) =
      [.mk "x" "span" 0 "hi" none "" none] :=
  ⟨fun t ht => by
      simp only [List.mem_singleton] at ht
      subst ht
      rfl,
    rfl,
    render_unruled_read_only [.mk "x" "span" 0 "hi" none "" none]
      (.list [.fragment 0 (.element (.tag "span") [] [.fragment 0 (.text "hi")])])
      [.mk "x" "span" 0 "hi" none "" none]
      (fun t ht => by
        simp only [List.mem_singleton] at ht
        subst ht
        rfl)
      rfl⟩

/-- C1 amended: for every token sequence that is the flattening of a balanced forest whose tokens the default
dispatcher handles plainly — Open/Close pairs resolving to the same truthy
element type, no token-handler rule for any token's type, no token of the
inline container type, and no render rule for any closing or self tag —
`render` succeeds, leaves the tokens unchanged, and returns the tree that
mirrors the forest's nesting exactly (`mirrorForest`). -/
theorem render_balanced_mirrors (r : Renderer) (F : TokForest)
    (hg : goodForest r F = true) :
    r.render (flattenForest F) =
      .ok (.list (wrapChildren (mirrorForest r F)), flattenForest F) := by
  simp only [Renderer.render]
  have h := blockLoop_forest r F [] [] ⟨[]⟩ hg
  simp only [List.nil_append, List.append_nil, List.length_nil] at h
  rw [h]
  dsimp only
  have he := forestOuts_empty_stack r F
  simp only [wrapChildren, he.2, filter_keep_mirrorForest]

/-- C1 witness: rendering the flattening of the concrete balanced forest
`c1Forest` (a `p` pair around a `text` self token) yields exactly its
mirror: one `p` element whose only child is the Fragment-typed text node
`hi`, each child keyed by position. -/
theorem render_balanced_mirrors_witness :
    goodForest defaultRenderer c1Forest = true ∧
    defaultRenderer.render (flattenForest c1Forest) =
      .ok (.list [.fragment 0 (.element (.tag "p") []
          [.fragment 0 (.element .fragment [] [.fragment 0 (.text "hi")])])],
        flattenForest c1Forest) :=
  ⟨rfl, (render_balanced_mirrors defaultRenderer c1Forest rfl).trans rfl⟩

/-- C1 counterexample: `[em_open, em_close]` is perfectly balanced by
resolved element type (both resolve to `em`), yet `render` with the default
renderer returns an EMPTY tree — no node mirrors the pair.  The default
`em_open` token-handler rule returns the null marker after pushing its
frame, so `render`'s `??` fallback pushes a second `em` frame; the close
token pops only one, and the pair's node is lost in the abandoned frame. -/
theorem render_balanced_mirrors_counterexample :
    defaultRenderer.resolveElementType (.mk "em_open" "em" 1 "" none "**" none) =
      defaultRenderer.resolveElementType (.mk "em_close" "em" (-1) "" none "**" none) ∧
    defaultRenderer.render
        [.mk "em_open" "em" 1 "" none "**" none,
          .mk "em_close" "em" (-1) "" none "**" none] =
      .ok (.list [],
        [.mk "em_open" "em" 1 "" (some [("data-markup", "**")]) "**" none,
          .mk "em_close" "em" (-1) "" none "**" none]) :=
  ⟨rfl, rfl⟩

/-- C2: `popTag` fails with `ImbalancedTags` exactly when the stack is empty
or the top frame's element type differs from the expected one; the error's
`expected` field carries the actual top frame's element type (absent when
the stack was empty) and its `received` field the element type the caller
asked to close; on a match the top frame is returned. -/
theorem popTag_imbalance_spec (Tag : ElementType) (env : RendererEnv) :
    match env.stack with
    | [] => (env.popTag Tag).1 = .error (.imbalancedTags none Tag)
    | top :: _ =>
      if top.Tag = Tag then (env.popTag Tag).1 = .ok top
      else (env.popTag Tag).1 = .error (.imbalancedTags (some top.Tag) Tag) := by
  obtain ⟨stack⟩ := env
  cases stack with
  | nil => simp [RendererEnv.popTag]
  | cons top rest =>
    by_cases h : top.Tag = Tag <;> simp [RendererEnv.popTag, h]

/-- C10: `popTag` removes the top frame before validating it: when it
raises `ImbalancedTags` on a mismatched non-empty stack, the frame has
already been popped, so the resulting stack is the tail (depth one less
than before the call). -/
theorem popTag_pops_before_validating (Tag : ElementType)
    (top : RendererEnvStackEntry) (rest : List RendererEnvStackEntry)
    (h : top.Tag ≠ Tag) :
    (RendererEnv.popTag ⟨top :: rest⟩ Tag).1 =
        .error (.imbalancedTags (some top.Tag) Tag) ∧
    (RendererEnv.popTag ⟨top :: rest⟩ Tag).2 = ⟨rest⟩ ∧
    (RendererEnv.popTag ⟨top :: rest⟩ Tag).2.stack.length + 1 =
      (top :: rest).length := by
  simp [RendererEnv.popTag, h]

/-- C10 witness: a concrete mismatched pop (`em` open, `p` requested)
errors and leaves the one-frame stack empty. -/
theorem popTag_pops_before_validating_witness :
    (ElementType.tag "em" ≠ ElementType.tag "p") ∧
    ((RendererEnv.popTag ⟨[⟨.tag "em", none, []⟩]⟩ (.tag "p")).1 =
        .error (.imbalancedTags (some (.tag "em")) (.tag "p")) ∧
      (RendererEnv.popTag ⟨[⟨.tag "em", none, []⟩]⟩ (.tag "p")).2 = ⟨[]⟩ ∧
      (RendererEnv.popTag ⟨[⟨.tag "em", none, []⟩]⟩ (.tag "p")).2.stack.length + 1 =
        ([⟨.tag "em", none, []⟩] : List RendererEnvStackEntry).length) :=
  ⟨by decide,
    popTag_pops_before_validating (.tag "p") ⟨.tag "em", none, []⟩ [] (by decide)⟩

/-- C7: the CSS declaration parser only camel-cases the FIRST hyphen of a
property name (the `replace` call lacks the global flag), so
`border-top-width` becomes `borderTop-width`, not `borderTopWidth`; and the
dead trailing `\s*` of the regex never trims trailing whitespace from a
value, so `color: red ;` keeps the value `"red "`. -/
theorem cssStringToReactStyle_first_hyphen_only :
    cssStringToReactStyle "border-top-width: 1px" = [("borderTop-width", "1px")] ∧
    cssStringToReactStyle "color: red ;" = [("color", "red ")] := by
  constructor <;> rfl

theorem resolveElementType_no_fallback_counterexample :
    c4Token.tag = "p" ∧ c4Renderer.tags "x" = some (.tag "") ∧
    c4Renderer.handleToken [c4Token] 0 ⟨[]⟩ =
      .error (.unknownTokenType c4Token) := by
  refine ⟨rfl, rfl, rfl⟩

/-- C4 amended: resolution consults `tags[token.type]` first and falls back
to `token.tag` only when the mapping is ABSENT; the dispatch raises
`UnknownElementType` carrying the token exactly when the resolved value is
falsy (absent mapping with empty tag, or a present but falsy mapping), and
never raises it when the resolved value is usable. -/
theorem handleToken_unknown_element_type (r : Renderer) (tokens : List Token)
    (idx : Nat) (env : RendererEnv) :
    r.resolveElementType (tokens.getD idx dtok) =
      (r.tags (tokens.getD idx dtok).type).getD (.tag (tokens.getD idx dtok).tag) ∧
    ((r.resolveElementType (tokens.getD idx dtok)).truthy = false →
      r.handleToken tokens idx env = .error (.unknownTokenType (tokens.getD idx dtok))) ∧
    ((r.resolveElementType (tokens.getD idx dtok)).truthy = true →
      ∀ t, r.handleToken tokens idx env ≠ .error (.unknownTokenType t)) := by
  refine ⟨rfl, ?_, ?_⟩
  · intro hfalse
    simp only [Renderer.handleToken]
    rw [hfalse]
    rfl
  · intro htrue t
    simp only [Renderer.handleToken]
    rw [htrue]
    simp only [Bool.not_true, Bool.false_eq_true, if_false]
    split
    · simp
    · by_cases hm : (tokens.getD idx dtok).nesting = -1
      · rw [if_pos hm]
        rcases env with ⟨stack⟩
        cases stack with
        | nil => simp [RendererEnv.popTag]
        | cons top rest =>
          by_cases ht : top.Tag = r.resolveElementType (tokens.getD idx dtok)
          · simp only [RendererEnv.popTag]
            rw [if_pos ht]
            simp
          · simp only [RendererEnv.popTag]
            rw [if_neg ht]
            simp
      · rw [if_neg hm]
        simp

/-- `wrapChildren` on no children. -/
theorem wrapChildren_nil : wrapChildren [] = [] := rfl

/-- `wrapChildren` on a single string child. -/
theorem wrapChildren_text (s : String) :
    wrapChildren [.text s] = [.fragment 0 (.text s)] := rfl

/-- C6: a self-closing token (nesting 0) handled by the default dispatcher
with no render rule for its tag yields, when `content` is non-empty, a node
with exactly one child — the content string (in its positional Fragment
wrapper) — and, when `content` is empty, a childless node carrying only the
projected attributes. -/
theorem handleToken_self_closing (r : Renderer) (tokens : List Token)
    (idx : Nat) (env : RendererEnv)
    (h0 : (tokens.getD idx dtok).nesting = 0)
    (hrule : r.renderRules (tokens.getD idx dtok).tag = none)
    (htruthy : (r.resolveElementType (tokens.getD idx dtok)).truthy = true) :
    r.handleToken tokens idx env =
      .ok (env.pushRendered (.element (r.resolveElementType (tokens.getD idx dtok))
        ((r.renderAttrs (tokens.getD idx dtok)).getD [])
        (if (tokens.getD idx dtok).content.isEmpty then []
         else [.fragment 0 (.text (tokens.getD idx dtok).content)]))) := by
  simp only [Renderer.handleToken]
  rw [htruthy]
  simp only [Bool.not_true, Bool.false_eq_true, if_false]
  rw [if_neg (by rw [h0]; decide), if_neg (by rw [h0]; decide), hrule]
  by_cases hc : (tokens.getD idx dtok).content.isEmpty
  · rw [if_pos hc, if_pos hc]
    rfl
  · rw [if_neg hc, if_neg hc]
    rfl

/-- C6 witness: a concrete `x`/`span` self-closing token with content `hi`
renders to a span with the single (keyed) text child `hi`; with empty
content, to a childless span. -/
theorem handleToken_self_closing_witness :
    ((Token.mk "x" "span" 0 "hi" none "" none).nesting = 0 ∧
      defaultRenderer.handleToken [.mk "x" "span" 0 "hi" none "" none] 0 ⟨[]⟩ =
        .ok (.element (.tag "span") [] [.fragment 0 (.text "hi")], ⟨[]⟩)) ∧
    defaultRenderer.handleToken [.mk "x" "span" 0 "" none "" none] 0 ⟨[]⟩ =
      .ok (.element (.tag "span") [] [], ⟨[]⟩) :=
  ⟨⟨rfl, (handleToken_self_closing defaultRenderer
      [.mk "x" "span" 0 "hi" none "" none] 0 ⟨[]⟩ rfl rfl rfl).trans rfl⟩,
    (handleToken_self_closing defaultRenderer
      [.mk "x" "span" 0 "" none "" none] 0 ⟨[]⟩ rfl rfl rfl).trans rfl⟩

/-- C8: the default `img` render rule, whenever the projected attributes
carry no `alt` (or an empty one), sets `alt` to the depth-first flattened
text of the already-built children; and that rule is what the default
renderer registers for the tag `img`. -/
theorem imgRule_derives_alt (Tag : ElementType) (attrs : Option AttrMap)
    (children : List ReactNode)
    (halt : getAttr (attrs.getD []) "alt" = none ∨
      getAttr (attrs.getD []) "alt" = some (.str "")) :
    defaultRenderer.renderRules "img" = some imgRenderRule ∧
    imgRenderRule Tag attrs children =
      .element Tag (setKey (attrs.getD []) "alt"
        (.str (getTextContentList children))) [] := by
  refine ⟨rfl, ?_⟩
  simp only [imgRenderRule]
  rcases halt with h | h <;> rw [h] <;> rfl

/-- C8 witness: children `["caption text"]` with empty attributes produce
the attribute mapping `alt = "caption text"` (the spec's concrete
example). -/
theorem imgRule_derives_alt_witness :
    (getAttr ((none : Option AttrMap).getD []) "alt" = none ∨
      getAttr ((none : Option AttrMap).getD []) "alt" = some (.str "")) ∧
    imgRenderRule (.tag "img") none [.text "caption text"] =
      .element (.tag "img") [("alt", .str "caption text")] [] :=
  ⟨Or.inl rfl,
    ((imgRule_derives_alt (.tag "img") none [.text "caption text"]
      (Or.inl rfl)).2).trans rfl⟩

/-- C3 counterexample: the rule for `foo` pushes ONE frame and returns
null, yet `render`'s dispatch (the `?? this.handleToken(...)` fallback)
leaves TWO frames — the default per-token dispatcher ran in addition to the
registered rule, so the rule alone did not determine the dispatch. -/
theorem render_dispatch_null_fallback_counterexample :
    c3Renderer.tokenHandlerRules "foo" = some c3Rule ∧
    c3Rule [c3Token] 0 ⟨[]⟩ =
      .ok (.null, [c3Token], ⟨[⟨.tag "div", none, []⟩]⟩) ∧
    c3Renderer.dispatchBlock [c3Token] 0 ⟨[]⟩ =
      .ok (.null, [c3Token], ⟨[⟨.tag "div", none, []⟩, ⟨.tag "div", none, []⟩]⟩) :=
  ⟨rfl, rfl, rfl⟩

/-- C3 amended: inside `renderInline` a registered token-handler rule alone
determines the token's dispatch; inside `render`, it does so only when its
result is not the null marker — when the rule returns null (or is absent),
`handleToken` runs (in addition, on the state the rule left behind). -/
theorem tokenHandlerRule_controls_dispatch (r : Renderer) (tokens : List Token)
    (i : Nat) (env : RendererEnv) (rule : TokenHandlerRule)
    (hrule : r.tokenHandlerRules (tokens.getD i dtok).type = some rule)
    (hni : (tokens.getD i dtok).type ≠ "inline") :
    r.dispatchInline tokens i env = rule tokens i env ∧
    r.dispatchBlock tokens i env =
      (match rule tokens i env with
       | .error e => .error e
       | .ok (.null, tokens', env') =>
         (match r.handleToken tokens' i env' with
          | .error e => .error e
          | .ok (node', env'') => .ok (node', tokens', env''))
       | .ok (node, tokens', env') => .ok (node, tokens', env')) := by
  constructor
  · simp only [Renderer.dispatchInline, hrule]
  · simp only [Renderer.dispatchBlock]
    rw [if_neg (by simpa using hni)]
    simp only [hrule]
    cases hr : rule tokens i env with
    | error e => simp only [hr]
    | ok res =>
      obtain ⟨node, tokens', env'⟩ := res
      simp only [hr]
      cases node <;> rfl

/-- C3 witness: the amended dispatch equations instantiated at the concrete
rule `c3Rule`, token `c3Token` and renderer `c3Renderer`. -/
theorem tokenHandlerRule_controls_dispatch_witness :
    c3Renderer.tokenHandlerRules (([c3Token].getD 0 dtok)).type = some c3Rule ∧
    (([c3Token].getD 0 dtok)).type ≠ "inline" ∧
    c3Renderer.dispatchInline [c3Token] 0 ⟨[]⟩ = c3Rule [c3Token] 0 ⟨[]⟩ :=
  ⟨rfl, by decide,
    (tokenHandlerRule_controls_dispatch c3Renderer [c3Token] 0 ⟨[]⟩ c3Rule rfl
      (by decide)).1⟩

/-- C5 counterexample: rendering a single `softbreak` token with the
library-provided default rule set succeeds but hands back a MUTATED token
array — the rule appended `data-softbreak = "true"` to the token's
attribute list, so the tokens are not read-only under the default rules. -/
theorem render_mutates_softbreak_counterexample :
    defaultRenderer.render [.mk "softbreak" "br" 0 "" none "" none] =
      .ok (.list [.fragment 0 (.element (.tag "br")
          [("data-softbreak", .str "true")] [])],
        [.mk "softbreak" "br" 0 "" (some [("data-softbreak", "true")]) "" none]) ∧
    (Token.mk "softbreak" "br" 0 "" (some [("data-softbreak", "true")]) "" none) ≠
      .mk "softbreak" "br" 0 "" none "" none := by
  refine ⟨rfl, ?_⟩
  intro h
  injection h with _ _ _ _ ha _ _
  exact Option.noConfusion ha

end MdReact
